import Mathlib

/-!
# User-level copy-on-write fork of JOS (`lib/fork.c`) and the monitor's
# `setmappings` command (`kern/monitor.c`)

The functions `pgfault`, `duppage`, `fork`, `sfork` and `set_mappings` are
transcribed from the C source.  Everything they call that lives outside the two
source files (the memory-layout constants, the system calls, `memmove`,
`set_pgfault_handler`, `pgdir_walk`) is modelled separately and marked as such.

Machine words are natural numbers; where the C arithmetic can wrap it is
reduced modulo `2 ^ 32` explicitly.  `uvpd` and `uvpt` are read as the arrays the
source indexes.  A run of user code ends in a `Res`: a returned value or a
panic, with the machine state reached; the state carries the log of the system
calls made, so that statements about what a function calls can be made.

The statements about `fork` assume what the library and the kernel maintain:
`thisenv` names the running environment, the running environment is not a free
slot, and a frame that is mapped is not on the free list.
-/

namespace JOS

/-! ## Constants -/

/-- Modelled from the spec: the page size, "a fixed power-of-two constant"
(`PGSIZE` of `inc/mmu.h`, which is not among the sources); the x86 value. -/
def PGSIZE : Nat := 4096

/-- Modelled from the spec: log2 of the page size (`PGSHIFT` of `inc/mmu.h`). -/
def PGSHIFT : Nat := 12

/-- Modelled from the spec: number of entries of a page directory
(`NPDENTRIES` of `inc/mmu.h`). -/
def NPDENTRIES : Nat := 1024

/-- Modelled from the spec: number of entries of a page table
(`NPTENTRIES` of `inc/mmu.h`). -/
def NPTENTRIES : Nat := 1024

/-- Modelled from the spec: bytes mapped by one page-directory entry
(`PTSIZE` of `inc/mmu.h`). -/
def PTSIZE : Nat := PGSIZE * NPTENTRIES

/-- Modelled from the spec: the Present flag of a Permission Set
(`PTE_P` of `inc/mmu.h`). -/
def PTE_P : Nat := 0x001

/-- Modelled from the spec: the Writable flag (`PTE_W` of `inc/mmu.h`). -/
def PTE_W : Nat := 0x002

/-- Modelled from the spec: the User-accessible flag (`PTE_U` of `inc/mmu.h`). -/
def PTE_U : Nat := 0x004

/-- Modelled from the spec: the Accessed flag (`PTE_A` of `inc/mmu.h`). -/
def PTE_A : Nat := 0x020

/-- Modelled from the spec: the Dirty flag (`PTE_D` of `inc/mmu.h`). -/
def PTE_D : Nat := 0x040

/-- Modelled from the spec: the "large page" flag (`PTE_PS` of `inc/mmu.h`). -/
def PTE_PS : Nat := 0x080

/-- Modelled from the spec: the bits "reserved for process-private use by the
platform" (`PTE_AVAIL` of `inc/mmu.h`). -/
def PTE_AVAIL : Nat := 0xE00

/-- Modelled from the spec: the flags a system call may set
(`PTE_SYSCALL` of `inc/mmu.h`). -/
def PTE_SYSCALL : Nat := PTE_AVAIL ||| PTE_P ||| PTE_W ||| PTE_U

/-- The copy-on-write flag, `#define PTE_COW 0x800` of `lib/fork.c`. -/
def PTE_COW : Nat := 0x800

/-- Modelled from the spec: the error-code bit "distinguishing a write access
from other causes" (`FEC_WR` of `inc/mmu.h`). -/
def FEC_WR : Nat := 0x2

/-- Modelled from the spec: the "fixed user-space ceiling"
(`UTOP` of `inc/memlayout.h`). -/
def UTOP : Nat := 0xEEC00000

/-- Modelled from the spec: top of the one-page user exception stack
(`UXSTACKTOP` of `inc/memlayout.h`). -/
def UXSTACKTOP : Nat := UTOP

/-- Modelled from the spec: base of the temporary-mapping region
(`UTEMP` of `inc/memlayout.h`). -/
def UTEMP : Nat := 0x00400000

/-- Modelled from the spec: the "reserved scratch virtual address"
(`PFTEMP` of `inc/memlayout.h`). -/
def PFTEMP : Nat := UTEMP + PTSIZE - PGSIZE

/-- Modelled from the spec: error code "bad environment" (`inc/error.h`). -/
def E_BAD_ENV : Int := 2

/-- Modelled from the spec: error code "invalid parameter" (`inc/error.h`). -/
def E_INVAL : Int := 3

/-- Modelled from the spec: error code "out of memory" (`inc/error.h`). -/
def E_NO_MEM : Int := 4

/-- Modelled from the spec: error code "no free environment" (`inc/error.h`). -/
def E_NO_FREE_ENV : Int := 5

/-- Modelled from the spec: status of an unused environment slot (`inc/env.h`). -/
def ENV_FREE : Nat := 0

/-- Modelled from the spec: status "schedulable" (`inc/env.h`). -/
def ENV_RUNNABLE : Nat := 2

/-- Modelled from the spec: status of the environment that is executing
(`inc/env.h`). -/
def ENV_RUNNING : Nat := 3

/-- Modelled from the spec: status of a created but not yet activated
environment (`inc/env.h`). -/
def ENV_NOT_RUNNABLE : Nat := 4

/-- Page number of a linear address, `PGNUM(la)` of `inc/mmu.h`. -/
def PGNUM (la : Nat) : Nat := la >>> PGSHIFT

/-- Rounding down to a multiple of `n`, `ROUNDDOWN(a, n)` of `inc/types.h`. -/
def ROUNDDOWN (a n : Nat) : Nat := a - a % n

/-! ## Machine state -/

/-- Code addresses that are stored in function-pointer variables. -/
inductive FnPtr where
  | null
  | pgfault
  | pgfault_upcall
  deriving DecidableEq, Repr

/-- One environment: the kernel's `struct Env` fields the protocol touches,
the two levels of its page table as seen through `uvpd` and `uvpt`
(`pgdir i` is the page-directory entry `i`, `pgtab pn` the page-table entry of
page `pn`; an entry is `frame * PGSIZE ||| flags`), and the two user-level
variables of the library, `thisenv->env_id` and `_pgfault_handler`. -/
structure Env where
  env_status : Nat
  env_parent_id : Nat
  env_pgfault_upcall : FnPtr
  pgdir : Nat → Nat
  pgtab : Nat → Nat
  thisenv : Nat
  pgfault_handler : FnPtr

/-- The system calls `lib/fork.c` issues, with their arguments. -/
inductive Syscall where
  | page_alloc (envid va perm : Nat)
  | page_map (srcenvid srcva dstenvid dstva perm : Nat)
  | page_unmap (envid va : Nat)
  | exofork
  | getenvid
  | env_set_pgfault_upcall (envid : Nat) (func : FnPtr)
  | env_set_status (envid status : Nat)
  deriving DecidableEq, Repr

/-- The whole machine: all environments (by id), the running one, the free
physical frames, the free environment ids, the contents of physical memory
(`mem frame offset`), and the log of system calls made so far. -/
structure Sys where
  envs : Nat → Env
  curenv : Nat
  page_free_list : List Nat
  env_free_list : List Nat
  mem : Nat → Nat → Nat
  trace : List Syscall

/-- Why a run stopped in `panic` (or in a failed `assert`). -/
inductive PanicMsg where
  | pgfault_not_write
  | pgfault_not_cow
  | sys_page_alloc (r : Int)
  | sys_page_map (r : Int)
  | sys_page_unmap (r : Int)
  | duppage (r : Int)
  | sys_exofork (r : Int)
  | assert_set_pgfault_upcall
  | assert_page_alloc
  | assert_set_status
  | set_pgfault_handler (r : Int)
  | fault
  deriving DecidableEq, Repr

/-- Outcome of running a piece of user code: it returns a value, or it panics;
either way the machine state reached is kept. -/
inductive Res (α : Type) where
  | ok (v : α) (s : Sys)
  | panic (m : PanicMsg) (s : Sys)

/-- The state in which the run ended. -/
def Res.st {α : Type} : Res α → Sys
  | Res.ok _ s => s
  | Res.panic _ s => s

/-- Whether the run returned normally. -/
def Res.isOk {α : Type} : Res α → Bool
  | Res.ok _ _ => true
  | Res.panic _ _ => false

/-- The returned value, if any. -/
def Res.val? {α : Type} : Res α → Option α
  | Res.ok v _ => some v
  | Res.panic _ _ => none

/-- The read-only user view `uvpt[pn]` of the running environment's page-table
entries (an array read). -/
def uvpt (s : Sys) (pn : Nat) : Nat := (s.envs s.curenv).pgtab pn

/-- The read-only user view `uvpd[i]` of the running environment's page
directory (an array read). -/
def uvpd (s : Sys) (i : Nat) : Nat := (s.envs s.curenv).pgdir i

/-- The value of `thisenv->env_id` in the running environment. -/
def thisenv_env_id (s : Sys) : Nat := (s.envs s.curenv).thisenv

/-- Frame number an entry refers to. -/
def frameOf (pte : Nat) : Nat := pte / PGSIZE

/-- Replace the record of environment `e`. -/
def setEnv (s : Sys) (e : Nat) (v : Env) : Sys :=
  { s with envs := fun x => if x = e then v else s.envs x }

/-- Append a system call to the log. -/
def logCall (s : Sys) (c : Syscall) : Sys :=
  { s with trace := s.trace ++ [c] }

/-! ## The kernel interface -/

/-- Modelled from the spec: resolution of an environment id by the kernel
(`envid2env` of `kern/env.c`, not among the sources): id 0 is the caller; any
other id must name a live environment, and, when `checkperm` is set, the caller
or one of its children. -/
def envid2env (s : Sys) (envid : Nat) (checkperm : Bool) : Option Nat :=
  if envid = 0 then some s.curenv
  else if (s.envs envid).env_status = ENV_FREE then none
  else if checkperm = true ∧ envid ≠ s.curenv ∧ (s.envs envid).env_parent_id ≠ s.curenv then none
  else some envid

/-- Modelled from the spec: `lookup_mapping(vpn) -> (frame_id, Permission Set) |
NotMapped` (`page_lookup` of `kern/pmap.c`, not among the sources): the entry of
`pn` when both the directory entry and the table entry are Present. -/
def page_lookup (e : Env) (pn : Nat) : Option Nat :=
  if e.pgdir (pn / NPTENTRIES) &&& PTE_P ≠ 0 ∧ e.pgtab pn &&& PTE_P ≠ 0 then some (e.pgtab pn)
  else none

/-- Modelled from the spec: installation of a mapping (`page_insert` of
`kern/pmap.c`, not among the sources).  When the page table of `pn` does not
exist, a frame is taken from the free list for it and the new table starts
empty; without a free frame the installation fails.  The entry of `pn` becomes
`frame * PGSIZE ||| perm ||| PTE_P`.  Frames are never given back: reclamation
is out of the protocol's scope. -/
def page_insert (e : Env) (free : List Nat) (frame pn perm : Nat) : Option (Env × List Nat) :=
  if e.pgdir (pn / NPTENTRIES) &&& PTE_P ≠ 0 then
    some ({ e with pgtab := fun q => if q = pn then frame * PGSIZE ||| (perm ||| PTE_P) else e.pgtab q },
          free)
  else
    match free with
    | [] => none
    | t :: rest =>
      some ({ e with
                pgdir := fun i => if i = pn / NPTENTRIES then t * PGSIZE ||| (PTE_P ||| PTE_W ||| PTE_U)
                                  else e.pgdir i,
                pgtab := fun q => if q = pn then frame * PGSIZE ||| (perm ||| PTE_P)
                                  else if q / NPTENTRIES = pn / NPTENTRIES then 0
                                  else e.pgtab q },
            rest)

/-- Modelled from the spec: removal of a mapping (`page_remove` of
`kern/pmap.c`, not among the sources): the entry of a mapped page is cleared,
an unmapped page is left alone. -/
def page_remove (e : Env) (pn : Nat) : Env :=
  match page_lookup e pn with
  | none => e
  | some _ => { e with pgtab := fun q => if q = pn then 0 else e.pgtab q }

/-- Modelled from the spec: the permission check of the mapping system calls
(`kern/syscall.c`, not among the sources): User and Present must be set and no
flag outside `PTE_SYSCALL` may be. -/
def perm_ok (perm : Nat) : Bool :=
  perm &&& (PTE_U ||| PTE_P) = (PTE_U ||| PTE_P) ∧ perm &&& PTE_SYSCALL = perm

/-- Modelled from the spec: `allocate_and_map(target_env, vpn, Permission Set)
-> Result`, which "allocates a physical frame and installs a mapping"
(`sys_page_alloc` of `kern/syscall.c`, not among the sources).  The frame is the
head of the free list and is handed out zero-filled; a mapping already present
at the address is replaced.  The call fails for an unknown environment, an
address at or above `UTOP` or not page-aligned, inadmissible flags, or when no
frame is free. -/
def sys_page_alloc (envid va perm : Nat) (s0 : Sys) : Int × Sys :=
  let s := logCall s0 (Syscall.page_alloc envid va perm)
  match envid2env s envid true with
  | none => (-E_BAD_ENV, s)
  | some e =>
    if va ≥ UTOP ∨ va % PGSIZE ≠ 0 then (-E_INVAL, s)
    else if perm_ok perm = false then (-E_INVAL, s)
    else
      match s.page_free_list with
      | [] => (-E_NO_MEM, s)
      | f :: rest =>
        match page_insert (s.envs e) rest f (va / PGSIZE) perm with
        | none => (-E_NO_MEM, s)
        | some r =>
          (0, { s with
                  envs := fun x => if x = e then r.1 else s.envs x,
                  page_free_list := r.2,
                  mem := fun fr off => if fr = f then 0 else s.mem fr off })

/-- Modelled from the spec: `map_existing(src_env, vpn, dst_env, dst_vpn,
Permission Set) -> Result`, which "installs a new mapping onto an
already-existing frame" (`sys_page_map` of `kern/syscall.c`, not among the
sources).  A Writable mapping of a frame that the source maps read-only is
refused. -/
def sys_page_map (srcenvid srcva dstenvid dstva perm : Nat) (s0 : Sys) : Int × Sys :=
  let s := logCall s0 (Syscall.page_map srcenvid srcva dstenvid dstva perm)
  match envid2env s srcenvid true, envid2env s dstenvid true with
  | some se, some de =>
    if srcva ≥ UTOP ∨ srcva % PGSIZE ≠ 0 ∨ dstva ≥ UTOP ∨ dstva % PGSIZE ≠ 0 then (-E_INVAL, s)
    else
      match page_lookup (s.envs se) (srcva / PGSIZE) with
      | none => (-E_INVAL, s)
      | some pte =>
        if perm_ok perm = false then (-E_INVAL, s)
        else if perm &&& PTE_W ≠ 0 ∧ pte &&& PTE_W = 0 then (-E_INVAL, s)
        else
          match page_insert (s.envs de) s.page_free_list (frameOf pte) (dstva / PGSIZE) perm with
          | none => (-E_NO_MEM, s)
          | some r =>
            (0, { s with
                    envs := fun x => if x = de then r.1 else s.envs x,
                    page_free_list := r.2 })
  | _, _ => (-E_BAD_ENV, s)

/-- Modelled from the spec: `unmap(env, vpn) -> Result` (`sys_page_unmap` of
`kern/syscall.c`, not among the sources). -/
def sys_page_unmap (envid va : Nat) (s0 : Sys) : Int × Sys :=
  let s := logCall s0 (Syscall.page_unmap envid va)
  match envid2env s envid true with
  | none => (-E_BAD_ENV, s)
  | some e =>
    if va ≥ UTOP ∨ va % PGSIZE ≠ 0 then (-E_INVAL, s)
    else (0, setEnv s e (page_remove (s.envs e) (va / PGSIZE)))

/-- Modelled from the spec: `create_child() -> ChildId`, seen from the parent
(`sys_exofork` of `kern/syscall.c`, not among the sources): "a new, empty child
environment", not yet runnable, whose user-level variables are the parent's
"copied verbatim"; the parent receives the child's identity.  It fails when no
environment id or no frame (for the child's page directory) is free. -/
def sys_exofork (s0 : Sys) : Int × Sys :=
  let s := logCall s0 Syscall.exofork
  match s.env_free_list with
  | [] => (-E_NO_FREE_ENV, s)
  | c :: crest =>
    match s.page_free_list with
    | [] => (-E_NO_MEM, s)
    | _ :: frest =>
      let p := s.envs s.curenv
      ((c : Int),
       { s with
           envs := fun x =>
             if x = c then
               { env_status := ENV_NOT_RUNNABLE,
                 env_parent_id := s.curenv,
                 env_pgfault_upcall := FnPtr.null,
                 pgdir := fun i => if i < UTOP / PTSIZE then 0 else p.pgdir i,
                 pgtab := fun pn => if pn < UTOP / PGSIZE then 0 else p.pgtab pn,
                 thisenv := p.thisenv,
                 pgfault_handler := p.pgfault_handler }
             else s.envs x,
           env_free_list := crest,
           page_free_list := frest })

/-- Modelled from the spec: the identity of the caller (`sys_getenvid` of
`kern/syscall.c`, not among the sources). -/
def sys_getenvid (s0 : Sys) : Int × Sys :=
  let s := logCall s0 Syscall.getenvid
  ((s.curenv : Int), s)

/-- Modelled from the spec: `install_fault_trampoline(env, entry_point)`
(`sys_env_set_pgfault_upcall` of `kern/syscall.c`, not among the sources). -/
def sys_env_set_pgfault_upcall (envid : Nat) (func : FnPtr) (s0 : Sys) : Int × Sys :=
  let s := logCall s0 (Syscall.env_set_pgfault_upcall envid func)
  match envid2env s envid true with
  | none => (-E_BAD_ENV, s)
  | some e => (0, setEnv s e { s.envs e with env_pgfault_upcall := func })

/-- Modelled from the spec: `set_status_runnable(env)` (`sys_env_set_status` of
`kern/syscall.c`, not among the sources); only the two statuses "runnable" and
"not runnable" are accepted. -/
def sys_env_set_status (envid status : Nat) (s0 : Sys) : Int × Sys :=
  let s := logCall s0 (Syscall.env_set_status envid status)
  if status ≠ ENV_RUNNABLE ∧ status ≠ ENV_NOT_RUNNABLE then (-E_INVAL, s)
  else
    match envid2env s envid true with
    | none => (-E_BAD_ENV, s)
    | some e => (0, setEnv s e { s.envs e with env_status := status })

/-- Modelled from the spec: `register_fault_handler(callback)`, which is
"process-local", "idempotent if already installed" and "establishes the
exception stack and the kernel-visible delivery entry point as a side effect"
(`set_pgfault_handler` of `lib/pgfault.c`, not among the sources). -/
def set_pgfault_handler (handler : FnPtr) (s : Sys) : Res Unit :=
  if (s.envs s.curenv).pgfault_handler = FnPtr.null then
    let a := sys_page_alloc 0 (UXSTACKTOP - PGSIZE) (PTE_W ||| PTE_U ||| PTE_P) s
    if a.1 < 0 then Res.panic (PanicMsg.set_pgfault_handler a.1) a.2
    else
      let b := sys_env_set_pgfault_upcall 0 FnPtr.pgfault_upcall a.2
      if b.1 < 0 then Res.panic (PanicMsg.set_pgfault_handler b.1) b.2
      else Res.ok () (setEnv b.2 b.2.curenv { b.2.envs b.2.curenv with pgfault_handler := handler })
  else Res.ok () (setEnv s s.curenv { s.envs s.curenv with pgfault_handler := handler })

/-- Modelled from the spec: "Copy the full contents of the faulting page ...
into the scratch mapping" (`memmove` of `lib/string.c`, not among the sources),
for the one shape `lib/fork.c` uses: page-aligned `dst` and `src`, at most one
page.  It runs in the running environment: the source page must be mapped and
the destination page mapped Writable, otherwise the access faults. -/
def memmove (dst src n : Nat) (s : Sys) : Option Sys :=
  match page_lookup (s.envs s.curenv) (dst / PGSIZE), page_lookup (s.envs s.curenv) (src / PGSIZE) with
  | some pd, some ps =>
    if pd &&& PTE_W ≠ 0 then
      some { s with mem := fun fr off =>
               if fr = frameOf pd ∧ off < n then s.mem (frameOf ps) off else s.mem fr off }
    else none
  | _, _ => none

/-- Rest of `thisenv = &envs[ENVX(sys_getenvid())]`: the running environment's
`thisenv` now designates the environment whose id the kernel reported. -/
def set_thisenv (id : Int) (s : Sys) : Sys :=
  setEnv s s.curenv { s.envs s.curenv with thisenv := id.toNat }

/-! ## `lib/fork.c` -/

/-- The page fault handler `pgfault` (`lib/fork.c`, lines 14-56), called with
the fields `utf_fault_va` and `utf_err` of the trap frame. -/
def pgfault (utf_fault_va utf_err : Nat) (s : Sys) : Res Unit :=
  let addr := utf_fault_va
  let err := utf_err
  let pte := uvpt s (PGNUM addr)
  if err &&& FEC_WR = 0 then Res.panic PanicMsg.pgfault_not_write s
  else if pte &&& PTE_COW = 0 then Res.panic PanicMsg.pgfault_not_cow s
  else
    let perm := PTE_P ||| PTE_W ||| PTE_U
    let a := sys_page_alloc 0 PFTEMP perm s
    if a.1 < 0 then Res.panic (PanicMsg.sys_page_alloc a.1) a.2
    else
      match memmove PFTEMP (ROUNDDOWN addr PGSIZE) PGSIZE a.2 with
      | none => Res.panic PanicMsg.fault a.2
      | some s2 =>
        let b := sys_page_map 0 PFTEMP 0 (ROUNDDOWN addr PGSIZE) perm s2
        if b.1 < 0 then Res.panic (PanicMsg.sys_page_map b.1) b.2
        else
          let c := sys_page_unmap 0 PFTEMP b.2
          if c.1 < 0 then Res.panic (PanicMsg.sys_page_unmap c.1) c.2
          else Res.ok () c.2

/-- The duplication policy `duppage` (`lib/fork.c`, lines 69-99); `pn` is an
`unsigned`, so `pn*PGSIZE` is reduced modulo `2 ^ 32`. -/
def duppage (envid pn : Nat) (s : Sys) : Res Int :=
  let pte := uvpt s pn
  if pte &&& PTE_W = 0 ∧ pte &&& PTE_COW = 0 then
    let r := sys_page_map (thisenv_env_id s) (pn * PGSIZE % 2 ^ 32) envid (pn * PGSIZE % 2 ^ 32)
      (pte &&& PTE_SYSCALL) s
    if r.1 < 0 then Res.panic (PanicMsg.duppage r.1) r.2
    else Res.ok 0 r.2
  else
    let pte1 := pte &&& (0xFFFFFFFF ^^^ PTE_W)
    let pte2 := pte1 ||| PTE_COW
    let r := sys_page_map (thisenv_env_id s) (pn * PGSIZE % 2 ^ 32) envid (pn * PGSIZE % 2 ^ 32)
      (pte2 &&& PTE_SYSCALL) s
    if r.1 < 0 then Res.panic (PanicMsg.duppage r.1) r.2
    else
      let r2 := sys_page_map (thisenv_env_id r.2) (pn * PGSIZE % 2 ^ 32) (thisenv_env_id r.2)
        (pn * PGSIZE % 2 ^ 32) (pte2 &&& PTE_SYSCALL) r.2
      if r2.1 < 0 then Res.panic (PanicMsg.duppage r2.1) r2.2
      else Res.ok 0 r2.2

/-- The inner loop of `fork` (lines 138-148) for directory index `i`, from
`j` on, with `is_below_ulim = b`.  The first argument counts the iterations
still available; `NPTENTRIES` of them are enough from `j = 0`, because `j`
grows by one each time round. -/
def fork_inner (childId i : Nat) : Nat → Nat → Bool → Sys → Res Bool
  | 0, _, b, s => Res.ok b s
  | n + 1, j, b, s =>
    if b = true ∧ j < NPTENTRIES then
      let pn := (i * NPTENTRIES + j) % 2 ^ 32
      if pn = (UXSTACKTOP - PGSIZE) >>> PGSHIFT then fork_inner childId i n (j + 1) b s
      else if pn ≥ UTOP >>> PGSHIFT then fork_inner childId i n (j + 1) true s
      else if uvpt s pn &&& PTE_P ≠ 0 then
        match duppage childId pn s with
        | Res.ok _ s1 => fork_inner childId i n (j + 1) b s1
        | Res.panic m s1 => Res.panic m s1
      else fork_inner childId i n (j + 1) b s
    else Res.ok b s

/-- The outer loop of `fork` (lines 134-149), from `i` on.  The test
`uvpd[i] && PTE_P` is a logical conjunction of two integers. -/
def fork_outer (childId : Nat) : Nat → Nat → Bool → Sys → Res Bool
  | 0, _, b, s => Res.ok b s
  | n + 1, i, b, s =>
    if b = true ∧ i < NPDENTRIES then
      if ¬ (uvpd s i ≠ 0 ∧ PTE_P ≠ 0) then fork_outer childId n (i + 1) b s
      else
        match fork_inner childId i NPTENTRIES 0 b s with
        | Res.ok b1 s1 => fork_outer childId n (i + 1) b1 s1
        | Res.panic m s1 => Res.panic m s1
    else Res.ok b s

/-- The parent branch of `fork` (lines 132-159): what runs once `sys_exofork`
has returned the positive `childId`. -/
def fork_parent (childId : Int) (s : Sys) : Res Int :=
  match fork_outer childId.toNat NPDENTRIES 0 true s with
  | Res.panic m s1 => Res.panic m s1
  | Res.ok _ s1 =>
    let a := sys_env_set_pgfault_upcall childId.toNat FnPtr.pgfault_upcall s1
    if a.1 ≠ 0 then Res.panic PanicMsg.assert_set_pgfault_upcall a.2
    else
      let b := sys_page_alloc childId.toNat (UXSTACKTOP - PGSIZE) (PTE_P ||| PTE_W ||| PTE_U) a.2
      if b.1 ≠ 0 then Res.panic PanicMsg.assert_page_alloc b.2
      else
        let c := sys_env_set_status childId.toNat ENV_RUNNABLE b.2
        if c.1 ≠ 0 then Res.panic PanicMsg.assert_set_status c.2
        else Res.ok childId c.2

/-- What `fork` does with the value `childId` that `sys_exofork` returned
(lines 124-159): panic on an error, repair `thisenv` and return 0 in the child,
run the parent branch otherwise. -/
def fork_after_exofork (childId : Int) (s : Sys) : Res Int :=
  if childId < 0 then Res.panic (PanicMsg.sys_exofork childId) s
  else if childId = 0 then
    let g := sys_getenvid s
    Res.ok childId (set_thisenv g.1 g.2)
  else fork_parent childId s

/-- User-level `fork` (`lib/fork.c`, lines 117-163), run by the parent. -/
def fork (s : Sys) : Res Int :=
  match set_pgfault_handler FnPtr.pgfault s with
  | Res.panic m s0 => Res.panic m s0
  | Res.ok _ s0 =>
    let r := sys_exofork s0
    fork_after_exofork r.1 r.2

/-- The inner loop of `sfork` (lines 186-196). -/
def sfork_inner (childId i : Nat) : Nat → Nat → Bool → Sys → Res Bool
  | 0, _, b, s => Res.ok b s
  | n + 1, j, b, s =>
    if b = true ∧ j < NPTENTRIES then
      let pn := (i * NPTENTRIES + j) % 2 ^ 32
      if pn = (UXSTACKTOP - PGSIZE) >>> PGSHIFT then sfork_inner childId i n (j + 1) b s
      else if pn ≥ UTOP >>> PGSHIFT then sfork_inner childId i n (j + 1) true s
      else if uvpt s pn &&& PTE_P ≠ 0 then
        match duppage childId pn s with
        | Res.ok _ s1 => sfork_inner childId i n (j + 1) b s1
        | Res.panic m s1 => Res.panic m s1
      else sfork_inner childId i n (j + 1) b s
    else Res.ok b s

/-- The outer loop of `sfork` (lines 183-197). -/
def sfork_outer (childId : Nat) : Nat → Nat → Bool → Sys → Res Bool
  | 0, _, b, s => Res.ok b s
  | n + 1, i, b, s =>
    if b = true ∧ i < NPDENTRIES then
      if ¬ (uvpd s i ≠ 0 ∧ PTE_P ≠ 0) then sfork_outer childId n (i + 1) b s
      else
        match sfork_inner childId i NPTENTRIES 0 b s with
        | Res.ok b1 s1 => sfork_outer childId n (i + 1) b1 s1
        | Res.panic m s1 => Res.panic m s1
    else Res.ok b s

/-- The parent branch of `sfork` (lines 181-207). -/
def sfork_parent (childId : Int) (s : Sys) : Res Int :=
  match sfork_outer childId.toNat NPDENTRIES 0 true s with
  | Res.panic m s1 => Res.panic m s1
  | Res.ok _ s1 =>
    let a := sys_env_set_pgfault_upcall childId.toNat FnPtr.pgfault_upcall s1
    if a.1 ≠ 0 then Res.panic PanicMsg.assert_set_pgfault_upcall a.2
    else
      let b := sys_page_alloc childId.toNat (UXSTACKTOP - PGSIZE) (PTE_P ||| PTE_W ||| PTE_U) a.2
      if b.1 ≠ 0 then Res.panic PanicMsg.assert_page_alloc b.2
      else
        let c := sys_env_set_status childId.toNat ENV_RUNNABLE b.2
        if c.1 ≠ 0 then Res.panic PanicMsg.assert_set_status c.2
        else Res.ok childId c.2

/-- What `sfork` does with the value that `sys_exofork` returned
(lines 173-207). -/
def sfork_after_exofork (childId : Int) (s : Sys) : Res Int :=
  if childId < 0 then Res.panic (PanicMsg.sys_exofork childId) s
  else if childId = 0 then
    let g := sys_getenvid s
    Res.ok childId (set_thisenv g.1 g.2)
  else sfork_parent childId s

/-- The "challenge" variant `sfork` (`lib/fork.c`, lines 166-210). -/
def sfork (s : Sys) : Res Int :=
  match set_pgfault_handler FnPtr.pgfault s with
  | Res.panic m s0 => Res.panic m s0
  | Res.ok _ s0 =>
    let r := sys_exofork s0
    sfork_after_exofork r.1 r.2

/-! ## `kern/monitor.c` -/

/-- The kernel's page table `kern_pgdir` as `set_mappings` sees it: directory
entries and page-table entries, the latter indexed by page number. -/
structure PageDir where
  pgdir : Nat → Nat
  pgtab : Nat → Nat

/-- Modelled from the spec: the "walk-and-optionally-create primitive", called
without creation (`pgdir_walk(pgdir, va, false)` of `kern/pmap.c`, not among the
sources): the page number whose entry the returned pointer designates, or
`none` for `NULL` when the page table of `va` does not exist. -/
def pgdir_walk (pd : PageDir) (va : Nat) : Option Nat :=
  if pd.pgdir (va / PTSIZE) &&& PTE_P ≠ 0 then some (va / PGSIZE) else none

/-- The largest value of a C `int`. -/
def INT_MAX : Int := 2147483647

/-- The loop of `set_mappings` (`kern/monitor.c`, lines 76-88) from `i` on.
`i` is a C `int`: `(void*)i` is `i` modulo `2 ^ 32`, `end%PGSIZE` truncates
towards zero, and `i += PGSIZE` beyond `INT_MAX` is undefined (`none`).  The
first argument bounds the number of iterations; `2 ^ 20 + 1` cannot be
exhausted, since `i` grows by `PGSIZE` each time round. -/
def set_mappings_loop (perm : Nat) (end_ : Int) : Nat → Int → PageDir → Option PageDir
  | 0, _, _ => none
  | n + 1, i, pd =>
    if i ≤ end_ - Int.tmod end_ (PGSIZE : Int) then
      let pd1 : PageDir :=
        match pgdir_walk pd (i % 2 ^ 32).toNat with
        | none => pd
        | some pn =>
          { pd with pgtab := fun q =>
              if q = pn then (pd.pgtab pn &&& (0xFFFFFFFF ^^^ 0xFFF)) ||| perm else pd.pgtab q }
      if i + (PGSIZE : Int) > INT_MAX then none
      else set_mappings_loop perm end_ n (i + (PGSIZE : Int)) pd1
    else some pd

/-- The monitor command `set_mappings` (`kern/monitor.c`, lines 62-90) on the
parsed arguments `start`, `end` (C `long`) and the parsed permission value:
`perm` is truncated to `uint16_t` and masked with `0xFFF`. -/
def set_mappings (start end_ permArg : Int) (kern_pgdir : PageDir) : Option PageDir :=
  let perm := ((permArg % 2 ^ 16).toNat) &&& 0xFFF
  set_mappings_loop perm end_ (2 ^ 20 + 1) start kern_pgdir

/-! ## Specification vocabulary and sample states -/

/-- The flags `duppage` passes for a writable or copy-on-write page. -/
def cowPerm (pte : Nat) : Nat := ((pte &&& (0xFFFFFFFF ^^^ PTE_W)) ||| PTE_COW) &&& PTE_SYSCALL

/-- Whether a run stopped because a system call of `pgfault` reported an error. -/
def Res.syscallFailed {α : Type} : Res α → Bool
  | Res.panic (PanicMsg.sys_page_alloc _) _ => true
  | Res.panic (PanicMsg.sys_page_map _) _ => true
  | Res.panic (PanicMsg.sys_page_unmap _) _ => true
  | _ => false

/-- The entry `duppage` installs in the child for a parent entry `pte`. -/
def dupEntry (pte : Nat) : Nat :=
  frameOf pte * PGSIZE |||
    ((if pte &&& PTE_W = 0 ∧ pte &&& PTE_COW = 0 then pte &&& PTE_SYSCALL else cowPerm pte) ||| PTE_P)

/-- The parent's entry after `duppage` ran on a page whose entry was `pte`. -/
def dupParentEntry (pte : Nat) : Nat :=
  if pte &&& PTE_W = 0 ∧ pte &&& PTE_COW = 0 then pte else frameOf pte * PGSIZE ||| (cowPerm pte ||| PTE_P)

/-- The system calls `duppage` makes for page `pn` of parent `p`, whose entry is
`pte`, towards child `c`. -/
def dupCalls (p c pn pte : Nat) : List Syscall :=
  if pte &&& PTE_W = 0 ∧ pte &&& PTE_COW = 0 then
    [Syscall.page_map p (pn * PGSIZE) c (pn * PGSIZE) (pte &&& PTE_SYSCALL)]
  else
    [Syscall.page_map p (pn * PGSIZE) c (pn * PGSIZE) (cowPerm pte),
     Syscall.page_map p (pn * PGSIZE) p (pn * PGSIZE) (cowPerm pte)]

/-- The pages the scan of `fork` hands to `duppage`, read off the state `s` in
which the scan starts: below the ceiling, not the exception stack, in a directory
whose entry is non-zero, with a Present page-table entry. -/
def dupCand (s : Sys) (q : Nat) : Prop :=
  q < UTOP / PGSIZE ∧ q ≠ (UXSTACKTOP - PGSIZE) / PGSIZE ∧
    uvpd s (q / NPTENTRIES) ≠ 0 ∧ uvpt s q &&& PTE_P ≠ 0

instance (s : Sys) (q : Nat) : Decidable (dupCand s q) := by
  unfold dupCand
  infer_instance

/-- The system calls of the scan over page numbers below `pos`. -/
def scanCalls (s : Sys) (c : Nat) : Nat → List Syscall
  | 0 => []
  | pos + 1 =>
    scanCalls s c pos ++ (if dupCand s pos then dupCalls s.curenv c pos (uvpt s pos) else [])

/-- State `t` is what the scan of `fork`, started in `s` towards child `c`, has
produced once all page numbers below `pos` are dealt with. -/
structure ScanInv (c : Nat) (s : Sys) (pos : Nat) (t : Sys) : Prop where
  cur : t.curenv = s.curenv
  mem : t.mem = s.mem
  efl : t.env_free_list = s.env_free_list
  free : ∃ l, l ++ t.page_free_list = s.page_free_list
  others : ∀ e, e ≠ s.curenv → e ≠ c → t.envs e = s.envs e
  pdir : (t.envs s.curenv).pgdir = (s.envs s.curenv).pgdir
  pthis : (t.envs s.curenv).thisenv = s.curenv
  ptab_done : ∀ q, q < pos → dupCand s q → (t.envs s.curenv).pgtab q = dupParentEntry (uvpt s q)
  ptab_rest : ∀ q, ¬ (q < pos ∧ dupCand s q) → (t.envs s.curenv).pgtab q = uvpt s q
  ctab_done : ∀ q, q < pos → dupCand s q → page_lookup (t.envs c) q = some (dupEntry (uvpt s q))
  ctab_rest : ∀ q, ¬ (q < pos ∧ dupCand s q) → page_lookup (t.envs c) q = page_lookup (s.envs c) q
  pres : ∀ q, q < pos → dupCand s q → page_lookup (s.envs s.curenv) q = some (uvpt s q)
  trace : t.trace = s.trace ++ scanCalls s c pos

/-- State `s'` is what the parent branch of `fork`, entered in state `s` with
child `c`, leaves behind. -/
structure ForkPost (c : Nat) (s s' : Sys) : Prop where
  cur : s'.curenv = s.curenv
  efl : s'.env_free_list = s.env_free_list
  others : ∀ e, e ≠ s.curenv → e ≠ c → s'.envs e = s.envs e
  pdir : (s'.envs s.curenv).pgdir = (s.envs s.curenv).pgdir
  pthis : (s'.envs s.curenv).thisenv = s.curenv
  ptab_done : ∀ q, dupCand s q → (s'.envs s.curenv).pgtab q = dupParentEntry (uvpt s q)
  ptab_rest : ∀ q, ¬ dupCand s q → (s'.envs s.curenv).pgtab q = uvpt s q
  pres : ∀ q, dupCand s q → page_lookup (s.envs s.curenv) q = some (uvpt s q)
  ctab_done : ∀ q, dupCand s q → page_lookup (s'.envs c) q = some (dupEntry (uvpt s q))
  ctab_rest : ∀ q, ¬ dupCand s q → q ≠ (UXSTACKTOP - PGSIZE) / PGSIZE →
    page_lookup (s'.envs c) q = page_lookup (s.envs c) q
  cx : ∃ f, f ∈ s.page_free_list ∧
    page_lookup (s'.envs c) ((UXSTACKTOP - PGSIZE) / PGSIZE) =
      some (f * PGSIZE ||| (PTE_P ||| PTE_W ||| PTE_U)) ∧
    (∀ fr off, s'.mem fr off = if fr = f then 0 else s.mem fr off)
  status : (s'.envs c).env_status = ENV_RUNNABLE
  upcall : (s'.envs c).env_pgfault_upcall = FnPtr.pgfault_upcall
  trace : s'.trace = s.trace ++ scanCalls s c (NPDENTRIES * NPTENTRIES) ++
    [Syscall.env_set_pgfault_upcall c FnPtr.pgfault_upcall,
     Syscall.page_alloc c (UXSTACKTOP - PGSIZE) (PTE_P ||| PTE_W ||| PTE_U),
     Syscall.env_set_status c ENV_RUNNABLE]

/-- The byte the running environment reads at virtual address `va`, if the page
is mapped. -/
def user_read (s : Sys) (va : Nat) : Option Nat :=
  (page_lookup (s.envs s.curenv) (va / PGSIZE)).map (fun pte => s.mem (frameOf pte) (va % PGSIZE))

/-- A state in which environment 2, a forked child of environment 1, runs: page 5
is shared copy-on-write on frame `0x200`, both have their own exception stack. -/
def sampleFault : Sys :=
  { envs := fun x =>
      if x = 1 then
        { env_status := ENV_RUNNABLE, env_parent_id := 0, env_pgfault_upcall := FnPtr.pgfault_upcall,
          pgdir := fun i => if i = 0 then 0x100007 else if i = 954 then 0x101007 else 0,
          pgtab := fun pn => if pn = 5 then 0x200805 else if pn = 0xEEBFF then 0x202007 else 0,
          thisenv := 1, pgfault_handler := FnPtr.pgfault }
      else if x = 2 then
        { env_status := ENV_RUNNING, env_parent_id := 1, env_pgfault_upcall := FnPtr.pgfault_upcall,
          pgdir := fun i => if i = 0 then 0x110007 else if i = 954 then 0x111007 else 0,
          pgtab := fun pn => if pn = 5 then 0x200805 else if pn = 0xEEBFF then 0x212007 else 0,
          thisenv := 2, pgfault_handler := FnPtr.pgfault }
      else
        { env_status := ENV_FREE, env_parent_id := 0, env_pgfault_upcall := FnPtr.null,
          pgdir := fun _ => 0, pgtab := fun _ => 0, thisenv := 0, pgfault_handler := FnPtr.null },
    curenv := 2,
    page_free_list := [0x300, 0x301, 0x302, 0x303],
    env_free_list := [3, 4],
    mem := fun fr off => if fr = 0x200 then (if off = 10 then 0xBB else 0xAA) else 0,
    trace := [] }

/-- A state in which environment 1 is about to fork: page 5 is writable, page 6
read-only and already accessed, the exception stack is in place and the fault
handler registered; environments 2 and 3 are free. -/
def sampleFork : Sys :=
  { envs := fun x =>
      if x = 1 then
        { env_status := ENV_RUNNING, env_parent_id := 0, env_pgfault_upcall := FnPtr.pgfault_upcall,
          pgdir := fun i => if i = 0 then 0x100007 else if i = 954 then 0x101007 else 0,
          pgtab := fun pn => if pn = 5 then 0x200007 else if pn = 6 then 0x201025
                             else if pn = 0xEEBFF then 0x202007 else 0,
          thisenv := 1, pgfault_handler := FnPtr.pgfault }
      else
        { env_status := ENV_FREE, env_parent_id := 0, env_pgfault_upcall := FnPtr.null,
          pgdir := fun _ => 0, pgtab := fun _ => 0, thisenv := 0, pgfault_handler := FnPtr.null },
    curenv := 1,
    page_free_list := [0x300, 0x301, 0x302, 0x303, 0x304, 0x305],
    env_free_list := [2, 3],
    mem := fun _ _ => 0xAA,
    trace := [] }

/-- The state of `sampleFork` once `sys_exofork` has created environment 2. -/
def sampleParent : Sys := (sys_exofork sampleFork).2

/-- A kernel page table in which the pages at `0xf0000000` and `0xf0001000`
have entries. -/
def sampleHigh : PageDir :=
  { pgdir := fun i => if i = 960 then 0x100003 else 0,
    pgtab := fun pn => if pn = 0xf0000 then 0x300001 else if pn = 0xf0001 then 0x301001 else 0 }

/-- The kernel page table used to exercise `set_mappings`: the page table of
directory 0 exists and pages 1, 2 and 3 have entries. -/
def sampleKern : PageDir :=
  { pgdir := fun i => if i = 0 then 0x100003 else 0,
    pgtab := fun pn => if pn = 1 then 0x201001 else if pn = 2 then 0x202001
                       else if pn = 3 then 0x203001 else 0 }

/-! ## Bit-level facts -/

theorem and_two_pow_ne_zero (x i : Nat) (h : x.testBit i = true) : x &&& 2 ^ i ≠ 0 := by
  rw [Nat.and_two_pow, h]; simp

theorem and_two_pow_eq_zero (x i : Nat) (h : x.testBit i = false) : x &&& 2 ^ i = 0 := by
  rw [Nat.and_two_pow, h]; simp

theorem testBit_of_and_two_pow (x i : Nat) (h : x &&& 2 ^ i ≠ 0) : x.testBit i = true := by
  rw [Nat.and_two_pow] at h
  cases hb : x.testBit i
  · simp [hb] at h
  · rfl

/-- An entry `frame * PGSIZE ||| q` with `q` below the page size is the sum. -/
theorem entry_eq_add (f q : Nat) (hq : q < PGSIZE) : f * PGSIZE ||| q = f * PGSIZE + q := by
  have h := Nat.mul_add_lt_is_or (i := 12) (b := q) (by simpa [PGSIZE] using hq) f
  simp only [PGSIZE]
  rw [Nat.mul_comm]
  simpa using h.symm

theorem frameOf_entry (f q : Nat) (hq : q < PGSIZE) : frameOf (f * PGSIZE ||| q) = f := by
  rw [entry_eq_add f q hq]
  simp only [frameOf, PGSIZE] at *
  omega

theorem entry_mod (f q : Nat) (hq : q < PGSIZE) : (f * PGSIZE ||| q) % PGSIZE = q := by
  rw [entry_eq_add f q hq]
  simp only [PGSIZE] at *
  omega

theorem and_low (x m : Nat) (hm : m < PGSIZE) : x &&& m = (x % PGSIZE) &&& m := by
  simp only [PGSIZE] at *
  have h1 : m &&& 4095 = m := by
    have := Nat.and_pow_two_sub_one_eq_mod m 12
    simpa [Nat.mod_eq_of_lt hm] using this
  have h2 : x &&& 4095 = x % 4096 := by
    simpa using Nat.and_pow_two_sub_one_eq_mod x 12
  calc x &&& m = x &&& (4095 &&& m) := by rw [Nat.and_comm 4095 m, h1]
    _ = (x &&& 4095) &&& m := by rw [Nat.and_assoc]
    _ = (x % 4096) &&& m := by rw [h2]

theorem entry_and (f q m : Nat) (hq : q < PGSIZE) (hm : m < PGSIZE) :
    (f * PGSIZE ||| q) &&& m = q &&& m := by
  rw [and_low _ m hm, entry_mod f q hq]

theorem and_syscall_lt (x : Nat) : x &&& PTE_SYSCALL < PGSIZE := by
  have : PTE_SYSCALL < 2 ^ 12 := by decide
  simpa [PGSIZE] using Nat.and_lt_two_pow x this

theorem or_P_lt (q : Nat) (hq : q < PGSIZE) : q ||| PTE_P < PGSIZE := by
  have h1 : q < 2 ^ 12 := by simpa [PGSIZE] using hq
  have h2 : PTE_P < 2 ^ 12 := by decide
  simpa [PGSIZE] using Nat.or_lt_two_pow h1 h2

theorem or_P_and_P (q : Nat) : (q ||| PTE_P) &&& PTE_P ≠ 0 := by
  show (q ||| 1) &&& 2 ^ 0 ≠ 0
  apply and_two_pow_ne_zero
  have h1 : Nat.testBit 1 0 = true := by decide
  simp [Nat.testBit_or, h1]

theorem cowPerm_cow (x : Nat) : (cowPerm x ||| PTE_P) &&& PTE_COW ≠ 0 := by
  show (((x &&& (0xFFFFFFFF ^^^ 2)) ||| 0x800) &&& 0xE07 ||| 1) &&& 2 ^ 11 ≠ 0
  apply and_two_pow_ne_zero
  have h1 : Nat.testBit 2048 11 = true := by decide
  have h2 : Nat.testBit 3591 11 = true := by decide
  simp [Nat.testBit_and, Nat.testBit_or, h1, h2]

theorem cowPerm_w (x : Nat) : (cowPerm x ||| PTE_P) &&& PTE_W = 0 := by
  show (((x &&& (0xFFFFFFFF ^^^ 2)) ||| 0x800) &&& 0xE07 ||| 1) &&& 2 ^ 1 = 0
  apply and_two_pow_eq_zero
  have h1 : Nat.testBit 2048 1 = false := by decide
  have h2 : Nat.testBit 4294967293 1 = false := by decide
  have h3 : Nat.testBit 1 1 = false := by decide
  simp [Nat.testBit_and, Nat.testBit_or, h1, h2, h3]

theorem cowPerm_lt (x : Nat) : cowPerm x ||| PTE_P < PGSIZE :=
  or_P_lt _ (and_syscall_lt _)

theorem and_syscall_or_P (x : Nat) (h : x &&& PTE_P ≠ 0) :
    (x &&& PTE_SYSCALL) ||| PTE_P = x &&& PTE_SYSCALL := by
  have hx := testBit_of_and_two_pow x 0 h
  show (x &&& 0xE07) ||| 1 = x &&& 0xE07
  apply Nat.eq_of_testBit_eq
  intro i
  simp only [Nat.testBit_and, Nat.testBit_or]
  rcases Nat.eq_zero_or_pos i with rfl | hi
  · have h2 : Nat.testBit 3591 0 = true := by decide
    simp [hx, h2]
  · have : Nat.testBit 1 i = false := by
      have h1 : (1 : Nat) = 2 ^ 0 := by norm_num
      rw [h1, Nat.testBit_two_pow]
      simp
      omega
    simp [this]

theorem perm7_or_P : (PTE_P ||| PTE_W ||| PTE_U) ||| PTE_P = PTE_P ||| PTE_W ||| PTE_U := by decide

theorem perm7_lt : PTE_P ||| PTE_W ||| PTE_U < PGSIZE := by decide

/-! ## Effects of the kernel interface -/

theorem page_lookup_some {e : Env} {pn pte : Nat} (h : page_lookup e pn = some pte) :
    e.pgdir (pn / NPTENTRIES) &&& PTE_P ≠ 0 ∧ e.pgtab pn &&& PTE_P ≠ 0 ∧ pte = e.pgtab pn := by
  unfold page_lookup at h
  split at h
  · rename_i hc
    simp at h
    exact ⟨hc.1, hc.2, h.symm⟩
  · simp at h

theorem page_lookup_of_present {e : Env} {pn : Nat} (h1 : e.pgdir (pn / NPTENTRIES) &&& PTE_P ≠ 0)
    (h2 : e.pgtab pn &&& PTE_P ≠ 0) : page_lookup e pn = some (e.pgtab pn) := by
  unfold page_lookup
  rw [if_pos ⟨h1, h2⟩]

theorem page_lookup_congr {e e1 : Env} {pn : Nat} (h1 : e1.pgdir (pn / NPTENTRIES) = e.pgdir (pn / NPTENTRIES))
    (h2 : e1.pgtab pn = e.pgtab pn) : page_lookup e1 pn = page_lookup e pn := by
  unfold page_lookup
  rw [h1, h2]

/-- What a successful `page_insert` leaves behind. -/
theorem page_insert_spec {e : Env} {free : List Nat} {frame pn perm : Nat} {r : Env × List Nat}
    (h : page_insert e free frame pn perm = some r) :
    page_lookup r.1 pn = some (frame * PGSIZE ||| (perm ||| PTE_P)) ∧
    (∀ q, q ≠ pn → page_lookup r.1 q = page_lookup e q) ∧
    (e.pgdir (pn / NPTENTRIES) &&& PTE_P ≠ 0 →
      r.1.pgdir = e.pgdir ∧ (∀ q, q ≠ pn → r.1.pgtab q = e.pgtab q) ∧ r.2 = free) ∧
    r.1.pgtab pn = frame * PGSIZE ||| (perm ||| PTE_P) ∧
    (∃ l, l ++ r.2 = free) ∧
    r.1.env_status = e.env_status ∧ r.1.env_parent_id = e.env_parent_id ∧
    r.1.env_pgfault_upcall = e.env_pgfault_upcall ∧ r.1.thisenv = e.thisenv ∧
    r.1.pgfault_handler = e.pgfault_handler := by
  have hP : ∀ a b : Nat, (a ||| (b ||| PTE_P)) &&& PTE_P ≠ 0 := by
    intro a b
    rw [← Nat.or_assoc]
    exact or_P_and_P _
  unfold page_insert at h
  split at h
  · rename_i hd
    simp only [Option.some.injEq] at h
    subst h
    refine ⟨?_, ?_, ?_, ?_, ⟨[], rfl⟩, rfl, rfl, rfl, rfl, rfl⟩
    · unfold page_lookup
      simp only [if_true]
      rw [if_pos ⟨hd, hP _ _⟩]
    · intro q hq
      unfold page_lookup
      simp only [if_neg hq]
    · intro _
      refine ⟨rfl, ?_, rfl⟩
      intro q hq
      simp only [if_neg hq]
    · simp
  · rename_i hd
    cases free with
    | nil => simp at h
    | cons t rest =>
      simp only [Option.some.injEq] at h
      subst h
      refine ⟨?_, ?_, ?_, ?_, ⟨[t], rfl⟩, rfl, rfl, rfl, rfl, rfl⟩
      · unfold page_lookup
        simp only [if_true]
        have h7 : (t * PGSIZE ||| (PTE_P ||| PTE_W ||| PTE_U)) &&& PTE_P ≠ 0 := by
          have : PTE_P ||| PTE_W ||| PTE_U = (PTE_W ||| PTE_U) ||| PTE_P := by decide
          rw [this]
          exact hP _ _
        rw [if_pos ⟨h7, hP _ _⟩]
      · intro q hq
        unfold page_lookup
        simp only [if_neg hq]
        by_cases hqd : q / NPTENTRIES = pn / NPTENTRIES
        · simp only [hqd, if_true]
          rw [if_neg, if_neg]
          · intro hc; exact hd hc.1
          · intro hc
            have : (0 : Nat) &&& PTE_P = 0 := by simp
            exact hc.2 this
        · simp only [if_neg hqd]
      · intro hc; exact absurd hc hd
      · simp

theorem envid2env_logCall (s : Sys) (c : Syscall) (envid : Nat) (b : Bool) :
    envid2env (logCall s c) envid b = envid2env s envid b := rfl

theorem neg_err_lt : -E_BAD_ENV < 0 ∧ -E_INVAL < 0 ∧ -E_NO_MEM < 0 ∧ -E_NO_FREE_ENV < 0 := by decide

/-- A `sys_page_map` that does not report an error resolved both environments,
found the source mapping, and installed the destination mapping. -/
theorem sys_page_map_ok {src srcva dst dstva perm : Nat} {s : Sys}
    (h : ¬ (sys_page_map src srcva dst dstva perm s).1 < 0) :
    ∃ se de pte r,
      envid2env s src true = some se ∧ envid2env s dst true = some de ∧
      srcva < UTOP ∧ srcva % PGSIZE = 0 ∧ dstva < UTOP ∧ dstva % PGSIZE = 0 ∧
      page_lookup (s.envs se) (srcva / PGSIZE) = some pte ∧
      perm_ok perm = true ∧ (perm &&& PTE_W ≠ 0 → pte &&& PTE_W ≠ 0) ∧
      page_insert (s.envs de) s.page_free_list (frameOf pte) (dstva / PGSIZE) perm = some r ∧
      sys_page_map src srcva dst dstva perm s =
        (0, { s with envs := fun x => if x = de then r.1 else s.envs x,
                     page_free_list := r.2,
                     trace := s.trace ++ [Syscall.page_map src srcva dst dstva perm] }) := by
  obtain ⟨hb, hi, hm, _⟩ := neg_err_lt
  unfold sys_page_map at h ⊢
  simp only [envid2env_logCall] at h ⊢
  split at h
  · rename_i se de hse hde
    split at h
    · exact absurd hi h
    · rename_i hva
      split at h
      · exact absurd hi h
      · rename_i pte hpte
        split at h
        · exact absurd hi h
        · rename_i hperm
          split at h
          · exact absurd hi h
          · rename_i hw
            split at h
            · exact absurd hm h
            · rename_i r hr
              refine ⟨se, de, pte, r, hse, hde, ?_, ?_, ?_, ?_, hpte, ?_, ?_, hr, ?_⟩
              · omega
              · omega
              · omega
              · omega
              · simpa using hperm
              · intro h1
                by_contra h2
                exact hw ⟨h1, h2⟩
              · rw [if_neg hva, if_neg hperm, if_neg hw]
                rfl
  · exact absurd hb h

/-- A `sys_page_alloc` that does not report an error took the head of the free
list, zero-filled it and installed it. -/
theorem sys_page_alloc_ok {envid va perm : Nat} {s : Sys}
    (h : ¬ (sys_page_alloc envid va perm s).1 < 0) :
    ∃ e f rest r,
      envid2env s envid true = some e ∧ va < UTOP ∧ va % PGSIZE = 0 ∧ perm_ok perm = true ∧
      s.page_free_list = f :: rest ∧
      page_insert (s.envs e) rest f (va / PGSIZE) perm = some r ∧
      sys_page_alloc envid va perm s =
        (0, { s with envs := fun x => if x = e then r.1 else s.envs x,
                     page_free_list := r.2,
                     mem := fun fr off => if fr = f then 0 else s.mem fr off,
                     trace := s.trace ++ [Syscall.page_alloc envid va perm] }) := by
  obtain ⟨hb, hi, hm, _⟩ := neg_err_lt
  unfold sys_page_alloc at h ⊢
  simp only [envid2env_logCall] at h ⊢
  split at h
  · exact absurd hb h
  · rename_i e he
    split at h
    · exact absurd hi h
    · rename_i hva
      split at h
      · exact absurd hi h
      · rename_i hperm
        split at h
        · exact absurd hm h
        · rename_i f rest hfree
          split at h
          · exact absurd hm h
          · rename_i r hr
            refine ⟨e, f, rest, r, he, ?_, ?_, ?_, hfree, hr, ?_⟩
            · omega
            · omega
            · simpa using hperm
            · rw [if_neg hva, if_neg hperm]
              rfl

/-- A `sys_page_unmap` that does not report an error removed the mapping. -/
theorem sys_page_unmap_ok {envid va : Nat} {s : Sys}
    (h : ¬ (sys_page_unmap envid va s).1 < 0) :
    ∃ e,
      envid2env s envid true = some e ∧ va < UTOP ∧ va % PGSIZE = 0 ∧
      sys_page_unmap envid va s =
        (0, { s with envs := fun x => if x = e then page_remove (s.envs e) (va / PGSIZE) else s.envs x,
                     trace := s.trace ++ [Syscall.page_unmap envid va] }) := by
  obtain ⟨hb, hi, hm, _⟩ := neg_err_lt
  unfold sys_page_unmap at h ⊢
  simp only [envid2env_logCall] at h ⊢
  split at h
  · exact absurd hb h
  · rename_i e he
    split at h
    · exact absurd hi h
    · rename_i hva
      refine ⟨e, he, ?_, ?_, ?_⟩
      · omega
      · omega
      · rw [if_neg hva]
        rfl

theorem page_remove_spec (e : Env) (pn : Nat) :
    page_lookup (page_remove e pn) pn = none ∧
    (∀ q, q ≠ pn → page_lookup (page_remove e pn) q = page_lookup e q) ∧
    (page_remove e pn).pgdir = e.pgdir ∧
    (∀ q, q ≠ pn → (page_remove e pn).pgtab q = e.pgtab q) ∧
    (page_remove e pn).env_status = e.env_status ∧
    (page_remove e pn).env_parent_id = e.env_parent_id ∧
    (page_remove e pn).env_pgfault_upcall = e.env_pgfault_upcall ∧
    (page_remove e pn).thisenv = e.thisenv ∧
    (page_remove e pn).pgfault_handler = e.pgfault_handler := by
  unfold page_remove
  cases hl : page_lookup e pn with
  | none => simp [hl]
  | some pte =>
    refine ⟨?_, ?_, ?_⟩
    · unfold page_lookup
      simp
    · intro q hq
      unfold page_lookup
      simp [hq]
    · simp only [true_and, and_true]
      intro q hq
      simp [hq]

theorem envid2env_self {s : Sys} {e : Nat} {b : Bool} (h : envid2env s s.curenv b = some e) :
    e = s.curenv := by
  unfold envid2env at h
  split at h
  · simpa using h.symm
  · split at h
    · simp at h
    · split at h
      · simp at h
      · simpa using h.symm

theorem envid2env_zero (s : Sys) (b : Bool) : envid2env s 0 b = some s.curenv := by
  unfold envid2env
  simp

theorem envid2env_pos {s : Sys} {envid e : Nat} {b : Bool} (h0 : envid ≠ 0)
    (h : envid2env s envid b = some e) : e = envid := by
  unfold envid2env at h
  rw [if_neg h0] at h
  split at h
  · simp at h
  · split at h
    · simp at h
    · simpa using h.symm

/-! ## The fault handler -/

theorem memmove_some {dst src n : Nat} {s s2 : Sys} (h : memmove dst src n s = some s2) :
    ∃ pd ps, page_lookup (s.envs s.curenv) (dst / PGSIZE) = some pd ∧
      page_lookup (s.envs s.curenv) (src / PGSIZE) = some ps ∧ pd &&& PTE_W ≠ 0 ∧
      s2 = { s with mem := fun fr off =>
               if fr = frameOf pd ∧ off < n then s.mem (frameOf ps) off else s.mem fr off } := by
  unfold memmove at h
  split at h
  · rename_i pd ps hpd hps
    split at h
    · rename_i hw
      simp only [Option.some.injEq] at h
      exact ⟨pd, ps, hpd, hps, hw, h.symm⟩
    · simp at h
  · simp at h

theorem PGNUM_eq (a : Nat) : PGNUM a = a / PGSIZE := by
  simp [PGNUM, PGSHIFT, PGSIZE, Nat.shiftRight_eq_div_pow]

theorem ROUNDDOWN_div (a : Nat) : ROUNDDOWN a PGSIZE / PGSIZE = a / PGSIZE := by
  simp only [ROUNDDOWN, PGSIZE]
  omega

/-- The steps of a `pgfault` that returns. -/
theorem pgfault_ok_steps {addr err : Nat} {s : Sys} (h : (pgfault addr err s).isOk = true) :
    err &&& FEC_WR ≠ 0 ∧ uvpt s (PGNUM addr) &&& PTE_COW ≠ 0 ∧
    ¬ (sys_page_alloc 0 PFTEMP (PTE_P ||| PTE_W ||| PTE_U) s).1 < 0 ∧
    ∃ s2, memmove PFTEMP (ROUNDDOWN addr PGSIZE) PGSIZE
            (sys_page_alloc 0 PFTEMP (PTE_P ||| PTE_W ||| PTE_U) s).2 = some s2 ∧
      ¬ (sys_page_map 0 PFTEMP 0 (ROUNDDOWN addr PGSIZE) (PTE_P ||| PTE_W ||| PTE_U) s2).1 < 0 ∧
      ¬ (sys_page_unmap 0 PFTEMP
          (sys_page_map 0 PFTEMP 0 (ROUNDDOWN addr PGSIZE) (PTE_P ||| PTE_W ||| PTE_U) s2).2).1 < 0 ∧
      pgfault addr err s = Res.ok ()
        (sys_page_unmap 0 PFTEMP
          (sys_page_map 0 PFTEMP 0 (ROUNDDOWN addr PGSIZE) (PTE_P ||| PTE_W ||| PTE_U) s2).2).2 := by
  unfold pgfault at h ⊢
  simp only at h ⊢
  by_cases h1 : err &&& FEC_WR = 0
  · rw [if_pos h1] at h; simp [Res.isOk] at h
  rw [if_neg h1] at h ⊢
  by_cases h2 : uvpt s (PGNUM addr) &&& PTE_COW = 0
  · rw [if_pos h2] at h; simp [Res.isOk] at h
  rw [if_neg h2] at h ⊢
  by_cases h3 : (sys_page_alloc 0 PFTEMP (PTE_P ||| PTE_W ||| PTE_U) s).1 < 0
  · rw [if_pos h3] at h; simp [Res.isOk] at h
  rw [if_neg h3] at h ⊢
  refine ⟨h1, h2, h3, ?_⟩
  cases hm : memmove PFTEMP (ROUNDDOWN addr PGSIZE) PGSIZE
      (sys_page_alloc 0 PFTEMP (PTE_P ||| PTE_W ||| PTE_U) s).2 with
  | none => rw [hm] at h; simp [Res.isOk] at h
  | some s2 =>
    rw [hm] at h
    simp only at h ⊢
    by_cases h4 : (sys_page_map 0 PFTEMP 0 (ROUNDDOWN addr PGSIZE) (PTE_P ||| PTE_W ||| PTE_U) s2).1 < 0
    · rw [if_pos h4] at h; simp [Res.isOk] at h
    rw [if_neg h4] at h ⊢
    by_cases h5 : (sys_page_unmap 0 PFTEMP
          (sys_page_map 0 PFTEMP 0 (ROUNDDOWN addr PGSIZE) (PTE_P ||| PTE_W ||| PTE_U) s2).2).1 < 0
    · rw [if_pos h5] at h; simp [Res.isOk] at h
    rw [if_neg h5]
    exact ⟨s2, rfl, h4, h5, rfl⟩

theorem perm7_entry (f : Nat) :
    f * PGSIZE ||| ((PTE_P ||| PTE_W ||| PTE_U) ||| PTE_P) = f * PGSIZE ||| (PTE_P ||| PTE_W ||| PTE_U) := by
  rw [perm7_or_P]

theorem perm7_entry_W (f : Nat) : (f * PGSIZE ||| (PTE_P ||| PTE_W ||| PTE_U)) &&& PTE_W ≠ 0 := by
  rw [entry_and f _ PTE_W perm7_lt (by decide)]
  decide

theorem perm7_entry_COW (f : Nat) : (f * PGSIZE ||| (PTE_P ||| PTE_W ||| PTE_U)) &&& PTE_COW = 0 := by
  rw [entry_and f _ PTE_COW perm7_lt (by decide)]
  decide

/-- What a returning `pgfault` leaves alone, whatever the faulting page: the
other environments, the mappings of the running environment other than those
of the faulting page and of the scratch page, and every frame but the one that
headed the free list. -/
theorem pgfault_ok_frame {addr err : Nat} {s : Sys} (h : (pgfault addr err s).isOk = true) :
    ∃ f rest,
      s.page_free_list = f :: rest ∧
      (pgfault addr err s).st.curenv = s.curenv ∧
      (∀ e, e ≠ s.curenv → (pgfault addr err s).st.envs e = s.envs e) ∧
      (∀ q, q ≠ PGNUM addr → q ≠ PGNUM PFTEMP →
        page_lookup ((pgfault addr err s).st.envs s.curenv) q = page_lookup (s.envs s.curenv) q) ∧
      (∀ fr off, fr ≠ f → (pgfault addr err s).st.mem fr off = s.mem fr off) := by
  obtain ⟨_, _, h3, s2, hm, h4, h5, hres⟩ := pgfault_ok_steps h
  simp only [PGNUM_eq]
  -- the allocation
  obtain ⟨e1, f, rest, r1, he1, _, _, _, hfree, hr1, hs1⟩ := sys_page_alloc_ok h3
  rw [envid2env_zero] at he1
  simp only [Option.some.injEq] at he1
  subst he1
  obtain ⟨i1a, i1b, _, _, _, _⟩ := page_insert_spec hr1
  rw [perm7_entry] at i1a
  -- the copy
  rw [hs1] at hm
  simp only at hm
  obtain ⟨pd, ps, hpd, _, _, hs2⟩ := memmove_some hm
  simp only [if_true] at hpd
  rw [i1a] at hpd
  simp only [Option.some.injEq] at hpd
  -- the re-mapping
  obtain ⟨se, de, pte3, r2, hse, hde, _, _, _, _, hl3, _, _, hr2, hs3⟩ := sys_page_map_ok h4
  rw [envid2env_zero] at hse hde
  simp only [Option.some.injEq] at hse hde
  subst hse
  have hcur2 : s2.curenv = s.curenv := by rw [hs2]
  have henv2 : s2.envs s.curenv = r1.1 := by rw [hs2]; simp
  rw [hcur2] at hde
  subst hde
  rw [henv2, ROUNDDOWN_div] at hr2
  obtain ⟨_, i2b, _, _, _, _⟩ := page_insert_spec hr2
  -- the unmapping
  rw [hs3] at h5
  obtain ⟨e4, he4, _, _, hs4⟩ := sys_page_unmap_ok h5
  rw [envid2env_zero] at he4
  simp only [Option.some.injEq] at he4
  simp only [hcur2] at he4
  subst he4
  obtain ⟨_, i4b, _⟩ := page_remove_spec r2.1 (PFTEMP / PGSIZE)
  have hst : (pgfault addr err s).st =
      { s2 with envs := fun x => if x = s.curenv then page_remove r2.1 (PFTEMP / PGSIZE)
                                 else if x = s.curenv then r2.1 else s2.envs x,
                page_free_list := r2.2,
                trace := (s2.trace ++ [Syscall.page_map 0 PFTEMP 0 (ROUNDDOWN addr PGSIZE)
                            (PTE_P ||| PTE_W ||| PTE_U)]) ++ [Syscall.page_unmap 0 PFTEMP] } := by
    rw [hres, hs3, hs4]
    simp [Res.st]
  refine ⟨f, rest, hfree, ?_, ?_, ?_, ?_⟩
  · rw [hst]; exact hcur2
  · intro e he
    rw [hst, hs2]
    simp [he]
  · intro q hq1 hq2
    rw [hst]
    simp only [if_true]
    rw [i4b _ hq2, i2b _ hq1, i1b _ hq2]
  · intro fr off hfr
    rw [hst, hs2, ← hpd, frameOf_entry f _ perm7_lt]
    simp [hfr]

/-- The state a returning `pgfault` leaves, for a fault outside the scratch page. -/
theorem pgfault_ok_spec {addr err : Nat} {s : Sys} (h : (pgfault addr err s).isOk = true)
    (hne : PGNUM addr ≠ PGNUM PFTEMP) :
    ∃ f rest pte,
      s.page_free_list = f :: rest ∧
      page_lookup (s.envs s.curenv) (PGNUM addr) = some pte ∧
      (pgfault addr err s).st.curenv = s.curenv ∧
      (∀ e, e ≠ s.curenv → (pgfault addr err s).st.envs e = s.envs e) ∧
      page_lookup ((pgfault addr err s).st.envs s.curenv) (PGNUM addr) =
        some (f * PGSIZE ||| (PTE_P ||| PTE_W ||| PTE_U)) ∧
      page_lookup ((pgfault addr err s).st.envs s.curenv) (PGNUM PFTEMP) = none ∧
      (∀ q, q ≠ PGNUM addr → q ≠ PGNUM PFTEMP →
        page_lookup ((pgfault addr err s).st.envs s.curenv) q = page_lookup (s.envs s.curenv) q) ∧
      (∀ fr off, fr ≠ f → (pgfault addr err s).st.mem fr off = s.mem fr off) ∧
      (frameOf pte ≠ f → ∀ off, off < PGSIZE → (pgfault addr err s).st.mem f off = s.mem (frameOf pte) off) := by
  obtain ⟨_, _, h3, s2, hm, h4, h5, hres⟩ := pgfault_ok_steps h
  rw [PGNUM_eq, PGNUM_eq] at hne
  simp only [PGNUM_eq]
  -- the allocation
  obtain ⟨e1, f, rest, r1, he1, _, _, _, hfree, hr1, hs1⟩ := sys_page_alloc_ok h3
  rw [envid2env_zero] at he1
  simp only [Option.some.injEq] at he1
  subst he1
  obtain ⟨i1a, i1b, _, _, _, _⟩ := page_insert_spec hr1
  rw [perm7_entry] at i1a
  -- the copy
  rw [hs1] at hm
  simp only at hm
  obtain ⟨pd, ps, hpd, hps, _, hs2⟩ := memmove_some hm
  simp only [if_true] at hpd hps
  rw [i1a] at hpd
  simp only [Option.some.injEq] at hpd
  rw [ROUNDDOWN_div, i1b _ hne] at hps
  -- the re-mapping
  obtain ⟨se, de, pte3, r2, hse, hde, _, _, _, _, hl3, _, _, hr2, hs3⟩ := sys_page_map_ok h4
  rw [envid2env_zero] at hse hde
  simp only [Option.some.injEq] at hse hde
  subst hse
  have hcur2 : s2.curenv = s.curenv := by rw [hs2]
  have henv2 : s2.envs s.curenv = r1.1 := by rw [hs2]; simp
  rw [hcur2] at hde
  subst hde
  rw [hcur2, henv2, i1a] at hl3
  simp only [Option.some.injEq] at hl3
  rw [henv2, ROUNDDOWN_div, ← hl3, frameOf_entry f _ perm7_lt] at hr2
  obtain ⟨i2a, i2b, _, _, _, _⟩ := page_insert_spec hr2
  rw [perm7_entry] at i2a
  -- the unmapping
  rw [hs3] at h5
  obtain ⟨e4, he4, _, _, hs4⟩ := sys_page_unmap_ok h5
  rw [envid2env_zero] at he4
  simp only [Option.some.injEq] at he4
  simp only [hcur2] at he4
  subst he4
  obtain ⟨i4a, i4b, _⟩ := page_remove_spec r2.1 (PFTEMP / PGSIZE)
  have hst : (pgfault addr err s).st =
      { s2 with envs := fun x => if x = s.curenv then page_remove r2.1 (PFTEMP / PGSIZE)
                                 else if x = s.curenv then r2.1 else s2.envs x,
                page_free_list := r2.2,
                trace := (s2.trace ++ [Syscall.page_map 0 PFTEMP 0 (ROUNDDOWN addr PGSIZE)
                            (PTE_P ||| PTE_W ||| PTE_U)]) ++ [Syscall.page_unmap 0 PFTEMP] } := by
    rw [hres, hs3, hs4]
    simp [Res.st]
  refine ⟨f, rest, ps, hfree, hps, ?_, ?_, ?_, ?_, ?_, ?_, ?_⟩
  · rw [hst]; exact hcur2
  · intro e he
    rw [hst, hs2]
    simp [he]
  · rw [hst]
    simp only [if_true]
    rw [i4b _ hne, i2a]
  · rw [hst]
    simp only [if_true]
    exact i4a
  · intro q hq1 hq2
    rw [hst]
    simp only [if_true]
    rw [i4b _ hq2, i2b _ hq1, i1b _ hq2]
  · intro fr off hfr
    rw [hst, hs2, ← hpd, frameOf_entry f _ perm7_lt]
    simp [hfr]
  · intro hF off hoff
    rw [hst, hs2, ← hpd, frameOf_entry f _ perm7_lt]
    simp [hoff, hF]

/-! ## The duplication policy and the scan of `fork` -/

theorem pn_va {pn : Nat} (h : pn < 2 ^ 20) :
    pn * PGSIZE % 2 ^ 32 = pn * PGSIZE ∧ pn * PGSIZE / PGSIZE = pn := by
  simp only [PGSIZE]
  omega

/-- What a returning `duppage` did, when `thisenv` names the running
environment and the target is another one. -/
theorem duppage_ok_spec {c pn : Nat} {s : Sys} (hT : (s.envs s.curenv).thisenv = s.curenv)
    (hc0 : c ≠ 0) (hcp : c ≠ s.curenv) (hpn : pn < 2 ^ 20)
    (h : (duppage c pn s).isOk = true) :
    (duppage c pn s).st.curenv = s.curenv ∧
    (duppage c pn s).st.mem = s.mem ∧
    (duppage c pn s).st.env_free_list = s.env_free_list ∧
    (∃ l, l ++ (duppage c pn s).st.page_free_list = s.page_free_list) ∧
    (∀ e, e ≠ s.curenv → e ≠ c → (duppage c pn s).st.envs e = s.envs e) ∧
    ((duppage c pn s).st.envs s.curenv).pgdir = (s.envs s.curenv).pgdir ∧
    ((duppage c pn s).st.envs s.curenv).thisenv = s.curenv ∧
    (∀ q, q ≠ pn → ((duppage c pn s).st.envs s.curenv).pgtab q = (s.envs s.curenv).pgtab q) ∧
    (∀ q, q ≠ pn → page_lookup ((duppage c pn s).st.envs c) q = page_lookup (s.envs c) q) ∧
    page_lookup (s.envs s.curenv) pn = some (uvpt s pn) ∧
    ((duppage c pn s).st.envs s.curenv).pgtab pn = dupParentEntry (uvpt s pn) ∧
    page_lookup ((duppage c pn s).st.envs c) pn = some (dupEntry (uvpt s pn)) ∧
    (duppage c pn s).st.trace = s.trace ++ dupCalls s.curenv c pn (uvpt s pn) := by
  obtain ⟨hva, hvd⟩ := pn_va hpn
  have hte : thisenv_env_id s = s.curenv := hT
  have hne : s.curenv ≠ c := fun hh => hcp hh.symm
  by_cases hro : uvpt s pn &&& PTE_W = 0 ∧ uvpt s pn &&& PTE_COW = 0
  · have hd : duppage c pn s =
        if (sys_page_map s.curenv (pn * PGSIZE) c (pn * PGSIZE) (uvpt s pn &&& PTE_SYSCALL) s).1 < 0 then
          Res.panic (PanicMsg.duppage
            (sys_page_map s.curenv (pn * PGSIZE) c (pn * PGSIZE) (uvpt s pn &&& PTE_SYSCALL) s).1)
            (sys_page_map s.curenv (pn * PGSIZE) c (pn * PGSIZE) (uvpt s pn &&& PTE_SYSCALL) s).2
        else Res.ok 0 (sys_page_map s.curenv (pn * PGSIZE) c (pn * PGSIZE) (uvpt s pn &&& PTE_SYSCALL) s).2 := by
      unfold duppage
      simp only [hva, hte]
      rw [if_pos hro]
    by_cases h1 : (sys_page_map s.curenv (pn * PGSIZE) c (pn * PGSIZE) (uvpt s pn &&& PTE_SYSCALL) s).1 < 0
    · rw [hd, if_pos h1] at h; simp [Res.isOk] at h
    rw [if_neg h1] at hd
    obtain ⟨se, de, pte, r, hse, hde, _, _, _, _, hl, _, _, hr, hs1⟩ := sys_page_map_ok h1
    have := envid2env_self hse
    subst this
    have := envid2env_pos hc0 hde
    subst this
    rw [hvd] at hl hr
    obtain ⟨_, _, hpte⟩ := page_lookup_some hl
    have hpte' : pte = uvpt s pn := hpte
    subst hpte'
    obtain ⟨ia, ib, _, _, il, _⟩ := page_insert_spec hr
    rw [hd, hs1]
    refine ⟨?_, ?_, ?_, ?_, ?_, ?_, ?_, ?_, ?_, hl, ?_, ?_, ?_⟩
    · rfl
    · rfl
    · rfl
    · exact il
    · intro e _ he2; simp [Res.st, he2]
    · simp [Res.st, hne]
    · simp [Res.st, hne, hT]
    · intro q _; simp [Res.st, hne]
    · intro q hq; simpa [Res.st] using ib q hq
    · simp only [Res.st, if_neg hne, dupParentEntry]
      rw [if_pos hro]
      rfl
    · simpa [Res.st, dupEntry, hro] using ia
    · simp [Res.st, dupCalls, hro]
  · have hd : duppage c pn s =
        if (sys_page_map s.curenv (pn * PGSIZE) c (pn * PGSIZE) (cowPerm (uvpt s pn)) s).1 < 0 then
          Res.panic (PanicMsg.duppage
            (sys_page_map s.curenv (pn * PGSIZE) c (pn * PGSIZE) (cowPerm (uvpt s pn)) s).1)
            (sys_page_map s.curenv (pn * PGSIZE) c (pn * PGSIZE) (cowPerm (uvpt s pn)) s).2
        else
          if (sys_page_map
                (thisenv_env_id (sys_page_map s.curenv (pn * PGSIZE) c (pn * PGSIZE) (cowPerm (uvpt s pn)) s).2)
                (pn * PGSIZE)
                (thisenv_env_id (sys_page_map s.curenv (pn * PGSIZE) c (pn * PGSIZE) (cowPerm (uvpt s pn)) s).2)
                (pn * PGSIZE) (cowPerm (uvpt s pn))
                (sys_page_map s.curenv (pn * PGSIZE) c (pn * PGSIZE) (cowPerm (uvpt s pn)) s).2).1 < 0 then
            Res.panic (PanicMsg.duppage (sys_page_map
                (thisenv_env_id (sys_page_map s.curenv (pn * PGSIZE) c (pn * PGSIZE) (cowPerm (uvpt s pn)) s).2)
                (pn * PGSIZE)
                (thisenv_env_id (sys_page_map s.curenv (pn * PGSIZE) c (pn * PGSIZE) (cowPerm (uvpt s pn)) s).2)
                (pn * PGSIZE) (cowPerm (uvpt s pn))
                (sys_page_map s.curenv (pn * PGSIZE) c (pn * PGSIZE) (cowPerm (uvpt s pn)) s).2).1)
              (sys_page_map
                (thisenv_env_id (sys_page_map s.curenv (pn * PGSIZE) c (pn * PGSIZE) (cowPerm (uvpt s pn)) s).2)
                (pn * PGSIZE)
                (thisenv_env_id (sys_page_map s.curenv (pn * PGSIZE) c (pn * PGSIZE) (cowPerm (uvpt s pn)) s).2)
                (pn * PGSIZE) (cowPerm (uvpt s pn))
                (sys_page_map s.curenv (pn * PGSIZE) c (pn * PGSIZE) (cowPerm (uvpt s pn)) s).2).2
          else
            Res.ok 0 (sys_page_map
                (thisenv_env_id (sys_page_map s.curenv (pn * PGSIZE) c (pn * PGSIZE) (cowPerm (uvpt s pn)) s).2)
                (pn * PGSIZE)
                (thisenv_env_id (sys_page_map s.curenv (pn * PGSIZE) c (pn * PGSIZE) (cowPerm (uvpt s pn)) s).2)
                (pn * PGSIZE) (cowPerm (uvpt s pn))
                (sys_page_map s.curenv (pn * PGSIZE) c (pn * PGSIZE) (cowPerm (uvpt s pn)) s).2).2 := by
      unfold duppage
      simp only [hva, hte]
      rw [if_neg hro]
      rfl
    by_cases h1 : (sys_page_map s.curenv (pn * PGSIZE) c (pn * PGSIZE) (cowPerm (uvpt s pn)) s).1 < 0
    · rw [hd, if_pos h1] at h; simp [Res.isOk] at h
    rw [if_neg h1] at hd
    obtain ⟨se, de, pte, r, hse, hde, _, _, _, _, hl, _, _, hr, hs1⟩ := sys_page_map_ok h1
    have := envid2env_self hse
    subst this
    have := envid2env_pos hc0 hde
    subst this
    rw [hvd] at hl hr
    obtain ⟨hpd, _, hpte⟩ := page_lookup_some hl
    have hpte' : pte = uvpt s pn := hpte
    subst hpte'
    obtain ⟨ia, ib, _, _, il, _⟩ := page_insert_spec hr
    have e1 : (sys_page_map s.curenv (pn * PGSIZE) de (pn * PGSIZE) (cowPerm (uvpt s pn)) s).2.curenv
        = s.curenv := by rw [hs1]
    have e2 : (sys_page_map s.curenv (pn * PGSIZE) de (pn * PGSIZE) (cowPerm (uvpt s pn)) s).2.envs s.curenv
        = s.envs s.curenv := by rw [hs1]; simp [hne]
    have e3 : (sys_page_map s.curenv (pn * PGSIZE) de (pn * PGSIZE) (cowPerm (uvpt s pn)) s).2.envs de
        = r.1 := by rw [hs1]; simp
    have e4 : (sys_page_map s.curenv (pn * PGSIZE) de (pn * PGSIZE) (cowPerm (uvpt s pn)) s).2.mem
        = s.mem := by rw [hs1]
    have e5 : (sys_page_map s.curenv (pn * PGSIZE) de (pn * PGSIZE) (cowPerm (uvpt s pn)) s).2.env_free_list
        = s.env_free_list := by rw [hs1]
    have e6 : (sys_page_map s.curenv (pn * PGSIZE) de (pn * PGSIZE) (cowPerm (uvpt s pn)) s).2.page_free_list
        = r.2 := by rw [hs1]
    have e7 : (sys_page_map s.curenv (pn * PGSIZE) de (pn * PGSIZE) (cowPerm (uvpt s pn)) s).2.trace
        = s.trace ++ [Syscall.page_map s.curenv (pn * PGSIZE) de (pn * PGSIZE) (cowPerm (uvpt s pn))] := by
      rw [hs1]
    have e8 : ∀ e, e ≠ de →
        (sys_page_map s.curenv (pn * PGSIZE) de (pn * PGSIZE) (cowPerm (uvpt s pn)) s).2.envs e = s.envs e := by
      intro e he; rw [hs1]; simp [he]
    have e9 : thisenv_env_id (sys_page_map s.curenv (pn * PGSIZE) de (pn * PGSIZE) (cowPerm (uvpt s pn)) s).2
        = s.curenv := by
      unfold thisenv_env_id; rw [e1, e2]; exact hT
    rw [e9] at hd
    generalize (sys_page_map s.curenv (pn * PGSIZE) de (pn * PGSIZE) (cowPerm (uvpt s pn)) s).2 = s1 at *
    by_cases h2 : (sys_page_map s.curenv (pn * PGSIZE) s.curenv (pn * PGSIZE) (cowPerm (uvpt s pn)) s1).1 < 0
    · rw [hd, if_pos h2] at h; simp [Res.isOk] at h
    rw [if_neg h2] at hd
    obtain ⟨se2, de2, pte2, r2, hse2, hde2, _, _, _, _, hl2, _, _, hr2, hs2⟩ := sys_page_map_ok h2
    rw [← e1] at hse2 hde2
    have := envid2env_self hse2
    subst this
    have := envid2env_self hde2
    subst this
    rw [hvd, e1, e2] at hl2
    rw [hvd, e1, e2, e6] at hr2
    rw [hl] at hl2
    simp only [Option.some.injEq] at hl2
    subst hl2
    obtain ⟨_, _, ic, id, _, _, _, _, ithis, _⟩ := page_insert_spec hr2
    obtain ⟨ic1, ic2, ic3⟩ := ic hpd
    rw [hd, hs2]
    simp only [e1]
    refine ⟨?_, ?_, ?_, ?_, ?_, ?_, ?_, ?_, ?_, hl, ?_, ?_, ?_⟩
    · rfl
    · exact e4
    · exact e5
    · show ∃ l, l ++ r2.2 = s.page_free_list
      rw [ic3]; exact il
    · intro e he1 he2
      simp only [Res.st, if_neg he1]
      exact e8 e he2
    · simpa [Res.st] using ic1
    · simpa [Res.st, hT] using ithis
    · intro q hq; simpa [Res.st] using ic2 q hq
    · intro q hq
      simp only [Res.st, if_neg hcp, e3]
      exact ib q hq
    · simp [Res.st, dupParentEntry, hro, id]
    · simp only [Res.st, if_neg hcp, e3]
      simpa [dupEntry, hro] using ia
    · simp [Res.st, e7, dupCalls, hro]

theorem ScanInv_init (c : Nat) (s : Sys) (hT : (s.envs s.curenv).thisenv = s.curenv) :
    ScanInv c s 0 s where
  cur := rfl
  mem := rfl
  efl := rfl
  free := ⟨[], rfl⟩
  others := fun _ _ _ => rfl
  pdir := rfl
  pthis := hT
  ptab_done := fun q hq _ => absurd hq (Nat.not_lt_zero q)
  ptab_rest := fun _ _ => rfl
  ctab_done := fun q hq _ => absurd hq (Nat.not_lt_zero q)
  ctab_rest := fun _ _ => rfl
  pres := fun q hq _ => absurd hq (Nat.not_lt_zero q)
  trace := by simp [scanCalls]

theorem scanCalls_skip (s : Sys) (c pos : Nat) :
    ∀ d, (∀ q, pos ≤ q → q < pos + d → ¬ dupCand s q) → scanCalls s c (pos + d) = scanCalls s c pos := by
  intro d
  induction d with
  | zero => intro _; rfl
  | succ d ih =>
    intro h
    have h1 : ¬ dupCand s (pos + d) := h (pos + d) (by omega) (by omega)
    have h2 := ih (fun q hq1 hq2 => h q hq1 (by omega))
    have h3 : scanCalls s c (pos + (d + 1)) = scanCalls s c (pos + d) ++
        (if dupCand s (pos + d) then dupCalls s.curenv c (pos + d) (uvpt s (pos + d)) else []) := rfl
    rw [h3, if_neg h1, h2]
    simp

theorem ScanInv_skip {c : Nat} {s t : Sys} {pos pos' : Nat} (hle : pos ≤ pos')
    (hno : ∀ q, pos ≤ q → q < pos' → ¬ dupCand s q) (inv : ScanInv c s pos t) :
    ScanInv c s pos' t := by
  have hlt : ∀ q, q < pos' → dupCand s q → q < pos := by
    intro q hq hc
    by_contra hn
    exact hno q (by omega) hq hc
  obtain ⟨d, rfl⟩ : ∃ d, pos' = pos + d := ⟨pos' - pos, by omega⟩
  exact {
    cur := inv.cur
    mem := inv.mem
    efl := inv.efl
    free := inv.free
    others := inv.others
    pdir := inv.pdir
    pthis := inv.pthis
    ptab_done := fun q hq hc => inv.ptab_done q (hlt q hq hc) hc
    ptab_rest := fun q hq => inv.ptab_rest q (fun hh => hq ⟨by omega, hh.2⟩)
    ctab_done := fun q hq hc => inv.ctab_done q (hlt q hq hc) hc
    ctab_rest := fun q hq => inv.ctab_rest q (fun hh => hq ⟨by omega, hh.2⟩)
    pres := fun q hq hc => inv.pres q (hlt q hq hc) hc
    trace := by rw [inv.trace, scanCalls_skip s c pos d hno] }

theorem ScanInv_dup {c : Nat} {s t : Sys} {pos : Nat} (hc0 : c ≠ 0) (hcp : c ≠ s.curenv)
    (hpos : pos < 2 ^ 20) (hcand : dupCand s pos) (inv : ScanInv c s pos t)
    (hok : (duppage c pos t).isOk = true) :
    ScanInv c s (pos + 1) (duppage c pos t).st := by
  have hcur := inv.cur
  have hT : (t.envs t.curenv).thisenv = t.curenv := by rw [hcur]; exact inv.pthis
  have hcp' : c ≠ t.curenv := by rw [hcur]; exact hcp
  have hu : uvpt t pos = uvpt s pos := by
    have := inv.ptab_rest pos (fun hh => Nat.lt_irrefl _ hh.1)
    simpa [uvpt, hcur] using this
  obtain ⟨d1, d2, d3, d4, d5, d6, d7, d8, d9, d10, d11, d12, d13⟩ := duppage_ok_spec hT hc0 hcp' hpos hok
  rw [hcur] at d1 d5 d6 d7 d8 d10 d11 d13
  rw [hu] at d10 d11 d12 d13
  have hl : page_lookup (s.envs s.curenv) pos = some (uvpt s pos) := by
    obtain ⟨a, b, _⟩ := page_lookup_some d10
    rw [inv.pdir] at a
    exact page_lookup_of_present a hcand.2.2.2
  exact {
    cur := d1
    mem := d2.trans inv.mem
    efl := d3.trans inv.efl
    free := by
      obtain ⟨l1, h1⟩ := d4
      obtain ⟨l2, h2⟩ := inv.free
      exact ⟨l2 ++ l1, by rw [List.append_assoc, h1, h2]⟩
    others := fun e h1 h2 => (d5 e h1 h2).trans (inv.others e h1 h2)
    pdir := d6.trans inv.pdir
    pthis := d7
    ptab_done := by
      intro q hq hc
      by_cases hqp : q = pos
      · subst hqp; exact d11
      · rw [d8 q hqp]; exact inv.ptab_done q (by omega) hc
    ptab_rest := by
      intro q hq
      have hqp : q ≠ pos := by
        intro hh; subst hh; exact hq ⟨by omega, hcand⟩
      rw [d8 q hqp]
      exact inv.ptab_rest q (fun hh => hq ⟨by omega, hh.2⟩)
    ctab_done := by
      intro q hq hc
      by_cases hqp : q = pos
      · subst hqp; exact d12
      · rw [d9 q hqp]; exact inv.ctab_done q (by omega) hc
    ctab_rest := by
      intro q hq
      have hqp : q ≠ pos := by
        intro hh; subst hh; exact hq ⟨by omega, hcand⟩
      rw [d9 q hqp]
      exact inv.ctab_rest q (fun hh => hq ⟨by omega, hh.2⟩)
    pres := by
      intro q hq hc
      by_cases hqp : q = pos
      · subst hqp; exact hl
      · exact inv.pres q (by omega) hc
    trace := by
      have h3 : scanCalls s c (pos + 1) = scanCalls s c pos ++
          (if dupCand s pos then dupCalls s.curenv c pos (uvpt s pos) else []) := rfl
      rw [d13, inv.trace, h3, if_pos hcand, List.append_assoc] }

theorem xstack_shift : (UXSTACKTOP - PGSIZE) >>> PGSHIFT = (UXSTACKTOP - PGSIZE) / PGSIZE := by decide

theorem utop_shift : UTOP >>> PGSHIFT = UTOP / PGSIZE := by decide

theorem fork_inner_succ (c i n j : Nat) (b : Bool) (s : Sys) :
    fork_inner c i (n + 1) j b s =
      if b = true ∧ j < NPTENTRIES then
        if (i * NPTENTRIES + j) % 2 ^ 32 = (UXSTACKTOP - PGSIZE) >>> PGSHIFT then
          fork_inner c i n (j + 1) b s
        else if (i * NPTENTRIES + j) % 2 ^ 32 ≥ UTOP >>> PGSHIFT then fork_inner c i n (j + 1) true s
        else if uvpt s ((i * NPTENTRIES + j) % 2 ^ 32) &&& PTE_P ≠ 0 then
          match duppage c ((i * NPTENTRIES + j) % 2 ^ 32) s with
          | Res.ok _ s1 => fork_inner c i n (j + 1) b s1
          | Res.panic m s1 => Res.panic m s1
        else fork_inner c i n (j + 1) b s
      else Res.ok b s := rfl

theorem fork_outer_succ (c n i : Nat) (b : Bool) (s : Sys) :
    fork_outer c (n + 1) i b s =
      if b = true ∧ i < NPDENTRIES then
        if ¬ (uvpd s i ≠ 0 ∧ PTE_P ≠ 0) then fork_outer c n (i + 1) b s
        else
          match fork_inner c i NPTENTRIES 0 b s with
          | Res.ok b1 s1 => fork_outer c n (i + 1) b1 s1
          | Res.panic m s1 => Res.panic m s1
      else Res.ok b s := rfl

/-- The inner loop, run on a directory whose entry is non-zero, carries the scan
from the first page of the directory to the first page of the next one. -/
theorem fork_inner_spec {c i : Nat} {s : Sys} (hc0 : c ≠ 0) (hcp : c ≠ s.curenv)
    (hi : i < NPDENTRIES) (hd : uvpd s i ≠ 0) :
    ∀ n j t, j + n = NPTENTRIES → ScanInv c s (i * NPTENTRIES + j) t →
      (fork_inner c i n j true t).isOk = true →
      ScanInv c s ((i + 1) * NPTENTRIES) (fork_inner c i n j true t).st ∧
        (fork_inner c i n j true t).val? = some true := by
  intro n
  induction n with
  | zero =>
    intro j t hj inv _
    have : i * NPTENTRIES + j = (i + 1) * NPTENTRIES := by
      simp only [NPTENTRIES] at hj ⊢; omega
    rw [this] at inv
    exact ⟨inv, rfl⟩
  | succ n ih =>
    intro j t hj inv hok
    have hjlt : j < NPTENTRIES := by omega
    have hpn : i * NPTENTRIES + j < 2 ^ 20 := by
      simp only [NPTENTRIES, NPDENTRIES] at hjlt hi ⊢; omega
    have hmod : (i * NPTENTRIES + j) % 2 ^ 32 = i * NPTENTRIES + j := Nat.mod_eq_of_lt (by omega)
    have hpos : i * NPTENTRIES + (j + 1) = i * NPTENTRIES + j + 1 := by omega
    have hdiv : (i * NPTENTRIES + j) / NPTENTRIES = i := by
      simp only [NPTENTRIES] at hjlt ⊢; omega
    have hu : uvpt t (i * NPTENTRIES + j) = uvpt s (i * NPTENTRIES + j) := by
      have := inv.ptab_rest (i * NPTENTRIES + j) (fun hh => Nat.lt_irrefl _ hh.1)
      simpa [uvpt, inv.cur] using this
    rw [fork_inner_succ, hmod, xstack_shift, utop_shift] at hok ⊢
    rw [if_pos ⟨rfl, hjlt⟩] at hok ⊢
    have skip : ¬ dupCand s (i * NPTENTRIES + j) →
        ScanInv c s (i * NPTENTRIES + (j + 1)) t := by
      intro hno
      rw [hpos]
      refine ScanInv_skip (Nat.le_succ _) ?_ inv
      intro q h1 h2
      have : q = i * NPTENTRIES + j := by omega
      rw [this]; exact hno
    by_cases h1 : i * NPTENTRIES + j = (UXSTACKTOP - PGSIZE) / PGSIZE
    · rw [if_pos h1] at hok ⊢
      exact ih (j + 1) t (by omega) (skip (fun hc => hc.2.1 h1)) hok
    rw [if_neg h1] at hok ⊢
    by_cases h2 : i * NPTENTRIES + j ≥ UTOP / PGSIZE
    · rw [if_pos h2] at hok ⊢
      exact ih (j + 1) t (by omega) (skip (fun hc => absurd hc.1 (by omega))) hok
    rw [if_neg h2] at hok ⊢
    by_cases h3 : uvpt t (i * NPTENTRIES + j) &&& PTE_P ≠ 0
    · rw [if_pos h3] at hok ⊢
      have hcand : dupCand s (i * NPTENTRIES + j) := by
        refine ⟨by omega, h1, ?_, ?_⟩
        · rw [hdiv]; exact hd
        · rw [← hu]; exact h3
      cases hdp : duppage c (i * NPTENTRIES + j) t with
      | panic m s1 => rw [hdp] at hok; simp [Res.isOk] at hok
      | ok v s1 =>
        rw [hdp] at hok
        simp only at hok ⊢
        have hdok : (duppage c (i * NPTENTRIES + j) t).isOk = true := by rw [hdp]; rfl
        have inv1 := ScanInv_dup hc0 hcp hpn hcand inv hdok
        rw [hdp] at inv1
        exact ih (j + 1) s1 (by omega) (by rw [hpos]; exact inv1) hok
    · rw [if_neg h3] at hok ⊢
      refine ih (j + 1) t (by omega) (skip (fun hc => ?_)) hok
      apply h3
      rw [hu]; exact hc.2.2.2

/-- The whole scan: from page 0 to page `NPDENTRIES * NPTENTRIES`. -/
theorem fork_outer_spec {c : Nat} {s : Sys} (hc0 : c ≠ 0) (hcp : c ≠ s.curenv) :
    ∀ n i t, i + n = NPDENTRIES → ScanInv c s (i * NPTENTRIES) t →
      (fork_outer c n i true t).isOk = true →
      ScanInv c s (NPDENTRIES * NPTENTRIES) (fork_outer c n i true t).st := by
  intro n
  induction n with
  | zero =>
    intro i t hi inv _
    have : i = NPDENTRIES := by omega
    subst this
    exact inv
  | succ n ih =>
    intro i t hi inv hok
    have hilt : i < NPDENTRIES := by omega
    have hu : uvpd t i = uvpd s i := by
      simp only [uvpd, inv.cur, inv.pdir]
    rw [fork_outer_succ] at hok ⊢
    rw [if_pos ⟨rfl, hilt⟩] at hok ⊢
    by_cases h1 : ¬ (uvpd t i ≠ 0 ∧ PTE_P ≠ 0)
    · rw [if_pos h1] at hok ⊢
      refine ih (i + 1) t (by omega) ?_ hok
      refine ScanInv_skip (by simp only [NPTENTRIES]; omega) ?_ inv
      intro q hq1 hq2 hc
      have hq : q / NPTENTRIES = i := by
        simp only [NPTENTRIES] at hq1 hq2 ⊢; omega
      apply h1
      refine ⟨?_, by decide⟩
      rw [hu, ← hq]
      exact hc.2.2.1
    · rw [if_neg h1] at hok ⊢
      have hd : uvpd s i ≠ 0 := by
        rw [← hu]
        by_contra h0
        exact h1 (fun hh => hh.1 h0)
      cases hin : fork_inner c i NPTENTRIES 0 true t with
      | panic m s1 => rw [hin] at hok; simp [Res.isOk] at hok
      | ok b1 s1 =>
        rw [hin] at hok
        simp only at hok ⊢
        have hinok : (fork_inner c i NPTENTRIES 0 true t).isOk = true := by rw [hin]; rfl
        obtain ⟨inv1, hb⟩ := fork_inner_spec hc0 hcp hilt hd NPTENTRIES 0 t (by omega) (by simpa using inv) hinok
        rw [hin] at inv1 hb
        simp only [Res.val?, Option.some.injEq] at hb
        subst hb
        exact ih (i + 1) s1 (by omega) inv1 hok

/-! ## The parent branch and the whole of `fork` -/

theorem neg_err_ne : -E_BAD_ENV ≠ 0 ∧ -E_INVAL ≠ 0 ∧ -E_NO_MEM ≠ 0 ∧ -E_NO_FREE_ENV ≠ 0 := by decide

theorem sys_env_set_pgfault_upcall_ok {envid : Nat} {func : FnPtr} {s : Sys}
    (h : (sys_env_set_pgfault_upcall envid func s).1 = 0) :
    ∃ e, envid2env s envid true = some e ∧
      sys_env_set_pgfault_upcall envid func s =
        (0, { s with envs := fun x => if x = e then { s.envs e with env_pgfault_upcall := func } else s.envs x,
                     trace := s.trace ++ [Syscall.env_set_pgfault_upcall envid func] }) := by
  obtain ⟨hb, _, _, _⟩ := neg_err_ne
  unfold sys_env_set_pgfault_upcall at h ⊢
  simp only [envid2env_logCall] at h ⊢
  split at h
  · exact absurd h hb
  · rename_i e he
    exact ⟨e, he, rfl⟩

theorem sys_env_set_status_ok {envid status : Nat} {s : Sys}
    (h : (sys_env_set_status envid status s).1 = 0) :
    ∃ e, envid2env s envid true = some e ∧
      sys_env_set_status envid status s =
        (0, { s with envs := fun x => if x = e then { s.envs e with env_status := status } else s.envs x,
                     trace := s.trace ++ [Syscall.env_set_status envid status] }) := by
  obtain ⟨hb, hi, _, _⟩ := neg_err_ne
  unfold sys_env_set_status at h ⊢
  simp only [envid2env_logCall] at h ⊢
  split at h
  · exact absurd h hi
  · rename_i hst
    split at h
    · exact absurd h hb
    · rename_i e he
      refine ⟨e, he, ?_⟩
      rw [if_neg hst]
      rfl

theorem sys_page_alloc_eq_zero {envid va perm : Nat} {s : Sys}
    (h : (sys_page_alloc envid va perm s).1 = 0) : ¬ (sys_page_alloc envid va perm s).1 < 0 := by
  rw [h]; decide

/-- The steps of a parent branch that returns. -/
theorem fork_parent_steps {childId : Int} {s : Sys} (h : (fork_parent childId s).isOk = true) :
    ∃ t, (fork_outer childId.toNat NPDENTRIES 0 true s).isOk = true ∧
      t = (fork_outer childId.toNat NPDENTRIES 0 true s).st ∧
      (sys_env_set_pgfault_upcall childId.toNat FnPtr.pgfault_upcall t).1 = 0 ∧
      (sys_page_alloc childId.toNat (UXSTACKTOP - PGSIZE) (PTE_P ||| PTE_W ||| PTE_U)
        (sys_env_set_pgfault_upcall childId.toNat FnPtr.pgfault_upcall t).2).1 = 0 ∧
      (sys_env_set_status childId.toNat ENV_RUNNABLE
        (sys_page_alloc childId.toNat (UXSTACKTOP - PGSIZE) (PTE_P ||| PTE_W ||| PTE_U)
          (sys_env_set_pgfault_upcall childId.toNat FnPtr.pgfault_upcall t).2).2).1 = 0 ∧
      fork_parent childId s = Res.ok childId
        (sys_env_set_status childId.toNat ENV_RUNNABLE
          (sys_page_alloc childId.toNat (UXSTACKTOP - PGSIZE) (PTE_P ||| PTE_W ||| PTE_U)
            (sys_env_set_pgfault_upcall childId.toNat FnPtr.pgfault_upcall t).2).2).2 := by
  unfold fork_parent at h ⊢
  cases hsc : fork_outer childId.toNat NPDENTRIES 0 true s with
  | panic m s1 => rw [hsc] at h; simp [Res.isOk] at h
  | ok b t =>
    rw [hsc] at h
    simp only at h ⊢
    by_cases h1 : (sys_env_set_pgfault_upcall childId.toNat FnPtr.pgfault_upcall t).1 ≠ 0
    · rw [if_pos h1] at h; simp [Res.isOk] at h
    rw [if_neg h1] at h ⊢
    by_cases h2 : (sys_page_alloc childId.toNat (UXSTACKTOP - PGSIZE) (PTE_P ||| PTE_W ||| PTE_U)
        (sys_env_set_pgfault_upcall childId.toNat FnPtr.pgfault_upcall t).2).1 ≠ 0
    · rw [if_pos h2] at h; simp [Res.isOk] at h
    rw [if_neg h2] at h ⊢
    by_cases h3 : (sys_env_set_status childId.toNat ENV_RUNNABLE
        (sys_page_alloc childId.toNat (UXSTACKTOP - PGSIZE) (PTE_P ||| PTE_W ||| PTE_U)
          (sys_env_set_pgfault_upcall childId.toNat FnPtr.pgfault_upcall t).2).2).1 ≠ 0
    · rw [if_pos h3] at h; simp [Res.isOk] at h
    rw [if_neg h3]
    exact ⟨t, rfl, rfl, by simpa using h1, by simpa using h2, by simpa using h3, rfl⟩

theorem dupCand_lt {s : Sys} {q : Nat} (h : dupCand s q) : q < NPDENTRIES * NPTENTRIES := by
  have h1 := h.1
  have : UTOP / PGSIZE < NPDENTRIES * NPTENTRIES := by decide
  omega

/-- The parent branch of `fork`, when it returns, has produced `ForkPost`. -/
theorem fork_parent_spec {childId : Int} {s : Sys} (hT : (s.envs s.curenv).thisenv = s.curenv)
    (h0 : 0 < childId) (hcp : childId.toNat ≠ s.curenv)
    (h : (fork_parent childId s).isOk = true) :
    ForkPost childId.toNat s (fork_parent childId s).st ∧
      (fork_parent childId s).val? = some childId := by
  have hc0 : childId.toNat ≠ 0 := by omega
  obtain ⟨t, hsc, ht, ha, hb, hc, hres⟩ := fork_parent_steps h
  have inv := fork_outer_spec hc0 hcp NPDENTRIES 0 s rfl (by simpa using ScanInv_init _ s hT) hsc
  rw [← ht] at inv
  generalize childId.toNat = c at *
  -- installing the upcall
  obtain ⟨ea, hea, hsa⟩ := sys_env_set_pgfault_upcall_ok ha
  have := envid2env_pos hc0 hea
  subst this
  rw [hsa] at hb hc hres
  simp only at hb hc hres
  -- allocating the exception stack
  obtain ⟨eb, f, rest, r, heb, _, _, _, hfree, hr, hsb⟩ := sys_page_alloc_ok (sys_page_alloc_eq_zero hb)
  have := envid2env_pos hc0 heb
  subst this
  simp only [if_true] at hfree hr
  obtain ⟨ia, ib, _, _, _, ist, _, iup, _, _⟩ := page_insert_spec hr
  rw [perm7_entry] at ia
  rw [hsb] at hc hres
  simp only at hc hres
  -- activating the child
  obtain ⟨ec, hec, hsc2⟩ := sys_env_set_status_ok hc
  have := envid2env_pos hc0 hec
  subst this
  rw [hsc2] at hres
  simp only at hres
  have hfm : f ∈ s.page_free_list := by
    obtain ⟨l, hl⟩ := inv.free
    rw [← hl, hfree]
    simp
  have hne : s.curenv ≠ ec := fun hh => hcp hh.symm
  have hx : ∀ q, dupCand s q → q ≠ (UXSTACKTOP - PGSIZE) / PGSIZE := fun q hq => hq.2.1
  rw [hres]
  refine ⟨?_, rfl⟩
  simp only [Res.st]
  exact {
    cur := inv.cur
    efl := inv.efl
    others := by
      intro e h1 h2
      simp only [if_neg h2]
      exact inv.others e h1 h2
    pdir := by
      simp only [if_neg hne]
      exact inv.pdir
    pthis := by
      simp only [if_neg hne]
      exact inv.pthis
    ptab_done := by
      intro q hq
      simp only [if_neg hne]
      exact inv.ptab_done q (dupCand_lt hq) hq
    ptab_rest := by
      intro q hq
      simp only [if_neg hne]
      exact inv.ptab_rest q (fun hh => hq hh.2)
    pres := fun q hq => inv.pres q (dupCand_lt hq) hq
    ctab_done := by
      intro q hq
      simp only [if_true]
      show page_lookup r.1 q = _
      rw [ib q (hx q hq)]
      exact inv.ctab_done q (dupCand_lt hq) hq
    ctab_rest := by
      intro q hq hqx
      simp only [if_true]
      show page_lookup r.1 q = _
      rw [ib q hqx]
      exact inv.ctab_rest q (fun hh => hq hh.2)
    cx := by
      refine ⟨f, hfm, ?_, ?_⟩
      · simp only [if_true]
        exact ia
      · intro fr off
        simp only [inv.mem]
    status := by simp
    upcall := by
      simp only [if_true]
      exact iup
    trace := by
      simp only [inv.trace, List.append_assoc, List.cons_append, List.nil_append] }

theorem sys_env_set_pgfault_upcall_nonneg {envid : Nat} {func : FnPtr} {s : Sys}
    (h : ¬ (sys_env_set_pgfault_upcall envid func s).1 < 0) :
    (sys_env_set_pgfault_upcall envid func s).1 = 0 := by
  obtain ⟨hb, _, _, _⟩ := neg_err_lt
  unfold sys_env_set_pgfault_upcall at h ⊢
  simp only [envid2env_logCall] at h ⊢
  split
  · rename_i he
    rw [he] at h
    exact absurd hb h
  · rfl

/-- What `set_pgfault_handler` changes when it returns: nothing outside the
running environment, and inside it at most the mapping of the exception stack. -/
theorem set_pgfault_handler_spec {hd : FnPtr} {s s0 : Sys} {v : Unit}
    (h : set_pgfault_handler hd s = Res.ok v s0) :
    s0.curenv = s.curenv ∧ s0.env_free_list = s.env_free_list ∧
    (∃ l, l ++ s0.page_free_list = s.page_free_list) ∧
    (∀ e, e ≠ s.curenv → s0.envs e = s.envs e) ∧
    (s0.envs s.curenv).thisenv = (s.envs s.curenv).thisenv ∧
    (∀ q, q ≠ (UXSTACKTOP - PGSIZE) / PGSIZE →
      page_lookup (s0.envs s.curenv) q = page_lookup (s.envs s.curenv) q) ∧
    (∀ fr, fr ∉ s.page_free_list → s0.mem fr = s.mem fr) ∧
    (∃ l, s0.trace = s.trace ++ l ∧ ∀ a b c d e, Syscall.page_map a b c d e ∉ l) ∧
    ((s.envs s.curenv).pgfault_handler ≠ FnPtr.null →
      ∀ q, page_lookup (s0.envs s.curenv) q = page_lookup (s.envs s.curenv) q) := by
  unfold set_pgfault_handler at h
  split at h
  · -- first registration
    rename_i hnull
    simp only at h
    split at h
    · simp at h
    · rename_i ha
      split at h
      · simp at h
      · rename_i hb
        simp only [Res.ok.injEq, true_and] at h
        obtain ⟨e1, f, rest, r, he1, _, _, _, hfree, hr, hs1⟩ := sys_page_alloc_ok ha
        rw [envid2env_zero] at he1
        simp only [Option.some.injEq] at he1
        subst he1
        obtain ⟨_, ib, _, _, il, _, _, _, ithis, _⟩ := page_insert_spec hr
        rw [hs1] at hb h
        simp only at hb h
        obtain ⟨e2, he2, hs2⟩ := sys_env_set_pgfault_upcall_ok (sys_env_set_pgfault_upcall_nonneg hb)
        rw [envid2env_zero] at he2
        simp only [Option.some.injEq] at he2
        subst he2
        rw [hs2] at h
        simp only [setEnv, if_true] at h
        subst h
        refine ⟨rfl, rfl, ?_, ?_, ?_, ?_, ?_, ?_, fun hreg => absurd hnull hreg⟩
        · obtain ⟨l, hl⟩ := il
          exact ⟨f :: l, by rw [hfree]; simp [hl]⟩
        · intro e he; simp [he]
        · simpa using ithis
        · intro q hq
          simp only [if_true]
          show page_lookup r.1 q = _
          exact ib q hq
        · intro fr hfr
          have : fr ≠ f := by
            intro hh; subst hh; exact hfr (by rw [hfree]; simp)
          funext off
          simp [this]
        · refine ⟨[Syscall.page_alloc 0 (UXSTACKTOP - PGSIZE) (PTE_W ||| PTE_U ||| PTE_P),
            Syscall.env_set_pgfault_upcall 0 FnPtr.pgfault_upcall], by simp, ?_⟩
          intro a b c d e hm
          simp at hm
  · simp only [Res.ok.injEq, true_and] at h
    subst h
    refine ⟨rfl, rfl, ⟨[], rfl⟩, ?_, ?_, ?_, ?_, ⟨[], by simp [setEnv], by simp⟩, ?_⟩
    · intro e he; simp [setEnv, he]
    · simp [setEnv]
    · intro q _
      simp only [setEnv, if_true]
      rfl
    · intro fr _; rfl
    · intro _ q
      simp only [setEnv, if_true]
      rfl

/-- What `sys_exofork` does when it hands a child to the parent. -/
theorem sys_exofork_spec {s : Sys} (h : ¬ (sys_exofork s).1 < 0) :
    ∃ c crest, s.env_free_list = c :: crest ∧ (sys_exofork s).1 = (c : Int) ∧
      (sys_exofork s).2.curenv = s.curenv ∧
      (∀ e, e ≠ c → (sys_exofork s).2.envs e = s.envs e) ∧
      (∃ l, l ++ (sys_exofork s).2.page_free_list = s.page_free_list) ∧
      (sys_exofork s).2.mem = s.mem ∧
      (sys_exofork s).2.trace = s.trace ++ [Syscall.exofork] ∧
      (∀ q, q < UTOP / PGSIZE → page_lookup ((sys_exofork s).2.envs c) q = none) := by
  obtain ⟨_, _, hm, hf⟩ := neg_err_lt
  unfold sys_exofork at h ⊢
  simp only [logCall] at h ⊢
  cases hel : s.env_free_list with
  | nil => rw [hel] at h; exact absurd hf h
  | cons c crest =>
    cases hpl : s.page_free_list with
    | nil => rw [hel, hpl] at h; exact absurd hm h
    | cons d frest =>
      refine ⟨c, crest, rfl, rfl, rfl, ?_, ⟨[d], rfl⟩, rfl, rfl, ?_⟩
      · intro e he; simp [he]
      · intro q hq
        simp only [if_true]
        unfold page_lookup
        simp only [if_pos hq]
        simp

/-- A `fork` that returns a positive value ran the parent branch, in a state
that differs from the initial one only by the registration of the handler and
the creation of the child. -/
theorem fork_entry {s : Sys} {childId : Int} (hv : (fork s).val? = some childId)
    (h0 : 0 < childId) (hcur : s.curenv ∉ s.env_free_list) :
    ∃ s1, fork s = fork_parent childId s1 ∧ s1.curenv = s.curenv ∧
      (s1.envs s.curenv).thisenv = (s.envs s.curenv).thisenv ∧
      childId.toNat ≠ s.curenv ∧ childId.toNat ∈ s.env_free_list ∧
      (∀ q, q ≠ (UXSTACKTOP - PGSIZE) / PGSIZE →
        page_lookup (s1.envs s.curenv) q = page_lookup (s.envs s.curenv) q) ∧
      (∀ e, e ≠ s.curenv → e ≠ childId.toNat → s1.envs e = s.envs e) ∧
      (∃ l, l ++ s1.page_free_list = s.page_free_list) ∧
      (∀ fr, fr ∉ s.page_free_list → s1.mem fr = s.mem fr) ∧
      (∀ q, q < UTOP / PGSIZE → page_lookup (s1.envs childId.toNat) q = none) ∧
      (∃ l, s1.trace = s.trace ++ l ∧ ∀ a b c d e, Syscall.page_map a b c d e ∉ l) ∧
      ((s.envs s.curenv).pgfault_handler ≠ FnPtr.null →
        ∀ q, page_lookup (s1.envs s.curenv) q = page_lookup (s.envs s.curenv) q) := by
  unfold fork at hv ⊢
  cases hh : set_pgfault_handler FnPtr.pgfault s with
  | panic m s0 => rw [hh] at hv; simp [Res.val?] at hv
  | ok v s0 =>
    rw [hh] at hv
    simp only at hv ⊢
    obtain ⟨a1, a2, a3, a4, a5, a6, a7, ⟨l1, a8, a9⟩, a10⟩ := set_pgfault_handler_spec hh
    unfold fork_after_exofork at hv ⊢
    by_cases h1 : (sys_exofork s0).1 < 0
    · rw [if_pos h1] at hv; simp [Res.val?] at hv
    rw [if_neg h1] at hv ⊢
    by_cases h2 : (sys_exofork s0).1 = 0
    · rw [if_pos h2] at hv
      simp only [Res.val?, Option.some.injEq] at hv
      omega
    rw [if_neg h2] at hv ⊢
    obtain ⟨c, crest, b1, b2, b3, b4, b5, b6, b7, b8⟩ := sys_exofork_spec h1
    have hcid : (sys_exofork s0).1 = childId := by
      cases hfp : fork_parent (sys_exofork s0).1 (sys_exofork s0).2 with
      | panic m s2 => rw [hfp] at hv; simp [Res.val?] at hv
      | ok w s2 =>
        have hok : (fork_parent (sys_exofork s0).1 (sys_exofork s0).2).isOk = true := by rw [hfp]; rfl
        obtain ⟨_, _, _, _, _, _, hres⟩ := fork_parent_steps hok
        rw [hres] at hv
        simpa [Res.val?] using hv
    have hc : childId.toNat = c := by rw [← hcid, b2]; simp
    have hmem : c ∈ s.env_free_list := by rw [← a2, b1]; simp
    have hne : c ≠ s.curenv := by
      intro hh2; rw [hh2] at hmem; exact hcur hmem
    rw [hcid]
    rw [hc]
    refine ⟨(sys_exofork s0).2, rfl, by rw [b3, a1], ?_, hne, hmem, ?_, ?_, ?_, ?_, ?_, ?_, ?_⟩
    · rw [b4 _ (Ne.symm hne), a5]
    · intro q hq
      rw [b4 _ (Ne.symm hne), a6 q hq]
    · intro e he1 he2
      rw [b4 e he2, a4 e he1]
    · obtain ⟨l, hl⟩ := b5
      obtain ⟨l', hl'⟩ := a3
      exact ⟨l' ++ l, by rw [List.append_assoc, hl, hl']⟩
    · intro fr hfr
      rw [b6, a7 fr hfr]
    · exact b8
    · refine ⟨l1 ++ [Syscall.exofork], by rw [b7, a8, List.append_assoc], ?_⟩
      intro a b c d e hm
      simp only [List.mem_append, List.mem_singleton] at hm
      rcases hm with hm | hm
      · exact a9 a b c d e hm
      · cases hm
    · intro hreg q
      rw [b4 _ (Ne.symm hne), a10 hreg q]

/-! ## Claims about the fault handler -/

theorem memmove_of_mapped (dst src n : Nat) {pd ps : Nat} (s : Sys)
    (hd : page_lookup (s.envs s.curenv) (dst / PGSIZE) = some pd)
    (hs : page_lookup (s.envs s.curenv) (src / PGSIZE) = some ps) (hw : pd &&& PTE_W ≠ 0) :
    ∃ s2, memmove dst src n s = some s2 := by
  unfold memmove
  simp only [hd, hs]
  rw [if_pos hw]
  exact ⟨_, rfl⟩

/-- A write fault on a mapped copy-on-write page is handled to the end unless a
system call reports an error. -/
theorem pgfault_returns {addr err pte : Nat} {s : Sys} (hw : err &&& FEC_WR ≠ 0)
    (hl : page_lookup (s.envs s.curenv) (PGNUM addr) = some pte) (hc : pte &&& PTE_COW ≠ 0)
    (hs : (pgfault addr err s).syscallFailed = false) : (pgfault addr err s).isOk = true := by
  obtain ⟨_, _, hpte⟩ := page_lookup_some hl
  have hu : uvpt s (PGNUM addr) &&& PTE_COW ≠ 0 := by
    have : uvpt s (PGNUM addr) = pte := hpte.symm
    rw [this]; exact hc
  unfold pgfault at hs ⊢
  simp only at hs ⊢
  rw [if_neg hw, if_neg hu] at hs ⊢
  by_cases h3 : (sys_page_alloc 0 PFTEMP (PTE_P ||| PTE_W ||| PTE_U) s).1 < 0
  · rw [if_pos h3] at hs; simp [Res.syscallFailed] at hs
  rw [if_neg h3] at hs ⊢
  -- the copy cannot fault
  obtain ⟨e1, f, rest, r1, he1, _, _, _, hfree, hr1, hs1⟩ := sys_page_alloc_ok h3
  rw [envid2env_zero] at he1
  simp only [Option.some.injEq] at he1
  subst he1
  obtain ⟨i1a, i1b, _⟩ := page_insert_spec hr1
  rw [perm7_entry] at i1a
  have hcur1 : (sys_page_alloc 0 PFTEMP (PTE_P ||| PTE_W ||| PTE_U) s).2.curenv = s.curenv := by
    rw [hs1]
  have henv1 : (sys_page_alloc 0 PFTEMP (PTE_P ||| PTE_W ||| PTE_U) s).2.envs s.curenv = r1.1 := by
    rw [hs1]; simp
  have hsrc : ∃ ps, page_lookup r1.1 (ROUNDDOWN addr PGSIZE / PGSIZE) = some ps := by
    rw [ROUNDDOWN_div]
    by_cases hq : addr / PGSIZE = PFTEMP / PGSIZE
    · rw [hq]; exact ⟨_, i1a⟩
    · rw [i1b _ hq, ← PGNUM_eq]; exact ⟨_, hl⟩
  obtain ⟨ps, hps⟩ := hsrc
  obtain ⟨s2, hm⟩ := memmove_of_mapped PFTEMP (ROUNDDOWN addr PGSIZE) PGSIZE
    (sys_page_alloc 0 PFTEMP (PTE_P ||| PTE_W ||| PTE_U) s).2
    (by rw [hcur1, henv1]; exact i1a) (by rw [hcur1, henv1]; exact hps) (perm7_entry_W f)
  rw [hm] at hs ⊢
  simp only at hs ⊢
  by_cases h4 : (sys_page_map 0 PFTEMP 0 (ROUNDDOWN addr PGSIZE) (PTE_P ||| PTE_W ||| PTE_U) s2).1 < 0
  · rw [if_pos h4] at hs; simp [Res.syscallFailed] at hs
  rw [if_neg h4] at hs ⊢
  by_cases h5 : (sys_page_unmap 0 PFTEMP
      (sys_page_map 0 PFTEMP 0 (ROUNDDOWN addr PGSIZE) (PTE_P ||| PTE_W ||| PTE_U) s2).2).1 < 0
  · rw [if_pos h5] at hs; simp [Res.syscallFailed] at hs
  rw [if_neg h5]
  rfl

/-- A write fault on a page whose entry lacks `PTE_COW` stops in the second
check, in the state of entry. -/
theorem pgfault_not_cow {addr err : Nat} {s : Sys} (h1 : err &&& FEC_WR ≠ 0)
    (h2 : uvpt s (PGNUM addr) &&& PTE_COW = 0) :
    pgfault addr err s = Res.panic PanicMsg.pgfault_not_cow s := by
  unfold pgfault
  simp only
  rw [if_neg h1, if_pos h2]

/-- Claim C3. A fault that is not a write makes `pgfault` panic, and so does a
write fault on a page whose entry lacks `PTE_COW`; in both cases the state at the
panic is the state at entry, so no mapping of any environment has changed.
Conversely a write fault on a mapped copy-on-write page is handled to the end
unless one of the three system calls reports an error. -/
theorem pgfault_preconditions (s : Sys) (addr err : Nat) :
    (err &&& FEC_WR = 0 → pgfault addr err s = Res.panic PanicMsg.pgfault_not_write s) ∧
    (err &&& FEC_WR ≠ 0 → uvpt s (PGNUM addr) &&& PTE_COW = 0 →
      pgfault addr err s = Res.panic PanicMsg.pgfault_not_cow s) ∧
    (err &&& FEC_WR ≠ 0 →
      (∃ pte, page_lookup (s.envs s.curenv) (PGNUM addr) = some pte ∧ pte &&& PTE_COW ≠ 0) →
      (pgfault addr err s).syscallFailed = false → (pgfault addr err s).isOk = true) := by
  refine ⟨?_, ?_, ?_⟩
  · intro h
    unfold pgfault
    simp only
    rw [if_pos h]
  · intro h1 h2
    exact pgfault_not_cow h1 h2
  · intro h1 h2 h3
    obtain ⟨pte, hl, hc⟩ := h2
    exact pgfault_returns h1 hl hc h3

set_option maxRecDepth 1000000 in
theorem pgfault_preconditions_witness :
    (pgfault 0x5010 0 sampleFault).isOk = false ∧ (pgfault 0x6010 2 sampleFault).isOk = false ∧
    (pgfault 0x5010 2 sampleFault).isOk = true :=
  ⟨by rw [(pgfault_preconditions sampleFault 0x5010 0).1 (by decide)]; rfl,
   by rw [(pgfault_preconditions sampleFault 0x6010 2).2.1 (by decide) (by decide!)]; rfl,
   (pgfault_preconditions sampleFault 0x5010 2).2.2 (by decide) ⟨0x200805, by decide!, by decide⟩
     (by decide!)⟩

/-- Claim C4. Data preservation.  When `pgfault` returns from a fault at
`addr` (aligned or not) on a mapped page other than the scratch page, every one
of the `PGSIZE` bytes of the page `ROUNDDOWN(addr, PGSIZE)` reads as it did
before the fault.  That the fault was a write and the page copy-on-write follows
from `pgfault` returning.  The frame the page was mapped to is in use, that is,
not on the free list. -/
theorem pgfault_preserves_data (s : Sys) (addr err pte : Nat)
    (hl : page_lookup (s.envs s.curenv) (PGNUM addr) = some pte)
    (hne : PGNUM addr ≠ PGNUM PFTEMP) (hused : frameOf pte ∉ s.page_free_list)
    (hok : (pgfault addr err s).isOk = true) :
    ∀ off, off < PGSIZE →
      user_read (pgfault addr err s).st (ROUNDDOWN addr PGSIZE + off) =
        some (s.mem (frameOf pte) off) ∧
      user_read s (ROUNDDOWN addr PGSIZE + off) = some (s.mem (frameOf pte) off) := by
  intro off hoff
  obtain ⟨f, rest, pte', hfree, hl', hcur, _, hnew, _, _, _, hcopy⟩ := pgfault_ok_spec hok hne
  rw [hl] at hl'
  simp only [Option.some.injEq] at hl'
  subst hl'
  have hF : frameOf pte ≠ f := by
    intro hh; apply hused; rw [hfree, hh]; simp
  have hdiv : (ROUNDDOWN addr PGSIZE + off) / PGSIZE = PGNUM addr := by
    rw [PGNUM_eq]
    simp only [ROUNDDOWN, PGSIZE] at hoff ⊢
    omega
  have hmod : (ROUNDDOWN addr PGSIZE + off) % PGSIZE = off := by
    simp only [ROUNDDOWN, PGSIZE] at hoff ⊢
    omega
  unfold user_read
  rw [hdiv, hmod, hcur, hnew, hl]
  simp only [Option.map_some', frameOf_entry f _ perm7_lt]
  exact ⟨by rw [hcopy hF off hoff], trivial⟩

set_option maxRecDepth 1000000 in
theorem pgfault_preserves_data_witness :
    user_read (pgfault 0x500a 2 sampleFault).st (ROUNDDOWN 0x500a PGSIZE + 10) = some 0xBB ∧
    user_read sampleFault (ROUNDDOWN 0x500a PGSIZE + 10) = some 0xBB :=
  pgfault_preserves_data sampleFault 0x500a 2 0x200805 (by decide!) (by decide) (by decide)
    (by decide!) 10 (by decide)

/-- Claim C5. After `pgfault` has handled a write fault on a mapped copy-on-write
page other than the scratch page, the faulting page is mapped with exactly
`PTE_P | PTE_W | PTE_U` onto the frame that headed the free list, which differs
from the frame it shared before; the scratch page is unmapped; and the entry now
is Writable and not copy-on-write, so that `pgfault`'s own check, applied again
to the same address, rejects the page as "not a COW page". -/
theorem pgfault_private_copy (s : Sys) (addr err pte : Nat)
    (hl : page_lookup (s.envs s.curenv) (PGNUM addr) = some pte)
    (hne : PGNUM addr ≠ PGNUM PFTEMP) (hused : frameOf pte ∉ s.page_free_list)
    (hok : (pgfault addr err s).isOk = true) :
    ∃ f, s.page_free_list.head? = some f ∧ f ≠ frameOf pte ∧
      page_lookup ((pgfault addr err s).st.envs (pgfault addr err s).st.curenv) (PGNUM addr) =
        some (uvpt (pgfault addr err s).st (PGNUM addr)) ∧
      frameOf (uvpt (pgfault addr err s).st (PGNUM addr)) = f ∧
      uvpt (pgfault addr err s).st (PGNUM addr) % PGSIZE = PTE_P ||| PTE_W ||| PTE_U ∧
      uvpt (pgfault addr err s).st (PGNUM addr) &&& PTE_W ≠ 0 ∧
      uvpt (pgfault addr err s).st (PGNUM addr) &&& PTE_COW = 0 ∧
      page_lookup ((pgfault addr err s).st.envs (pgfault addr err s).st.curenv) (PGNUM PFTEMP) = none ∧
      pgfault addr err (pgfault addr err s).st =
        Res.panic PanicMsg.pgfault_not_cow (pgfault addr err s).st := by
  obtain ⟨hwr, _, _⟩ := pgfault_ok_steps hok
  obtain ⟨f, rest, pte', hfree, hl', hcur, _, hnew, htmp, _, _, _⟩ := pgfault_ok_spec hok hne
  rw [hl] at hl'
  simp only [Option.some.injEq] at hl'
  subst hl'
  have hF : f ≠ frameOf pte := by
    intro hh; apply hused; rw [hfree, ← hh]; simp
  obtain ⟨_, _, hraw⟩ := page_lookup_some hnew
  have hu : uvpt (pgfault addr err s).st (PGNUM addr) = f * PGSIZE ||| (PTE_P ||| PTE_W ||| PTE_U) := by
    unfold uvpt
    rw [hcur]
    exact hraw.symm
  refine ⟨f, by rw [hfree]; rfl, hF, ?_, ?_, ?_, ?_, ?_, ?_, ?_⟩
  · rw [hcur, hu]; exact hnew
  · rw [hu]; exact frameOf_entry f _ perm7_lt
  · rw [hu]; exact entry_mod f _ perm7_lt
  · rw [hu]; exact perm7_entry_W f
  · rw [hu]; exact perm7_entry_COW f
  · rw [hcur]; exact htmp
  · exact pgfault_not_cow hwr (by rw [hu]; exact perm7_entry_COW f)

set_option maxRecDepth 1000000 in
theorem pgfault_private_copy_witness :
    ∃ f, sampleFault.page_free_list.head? = some f ∧ f ≠ frameOf 0x200805 ∧
      page_lookup ((pgfault 0x500a 2 sampleFault).st.envs (pgfault 0x500a 2 sampleFault).st.curenv)
          (PGNUM 0x500a) = some (uvpt (pgfault 0x500a 2 sampleFault).st (PGNUM 0x500a)) ∧
      frameOf (uvpt (pgfault 0x500a 2 sampleFault).st (PGNUM 0x500a)) = f ∧
      uvpt (pgfault 0x500a 2 sampleFault).st (PGNUM 0x500a) % PGSIZE = PTE_P ||| PTE_W ||| PTE_U ∧
      uvpt (pgfault 0x500a 2 sampleFault).st (PGNUM 0x500a) &&& PTE_W ≠ 0 ∧
      uvpt (pgfault 0x500a 2 sampleFault).st (PGNUM 0x500a) &&& PTE_COW = 0 ∧
      page_lookup ((pgfault 0x500a 2 sampleFault).st.envs (pgfault 0x500a 2 sampleFault).st.curenv)
          (PGNUM PFTEMP) = none ∧
      pgfault 0x500a 2 (pgfault 0x500a 2 sampleFault).st =
        Res.panic PanicMsg.pgfault_not_cow (pgfault 0x500a 2 sampleFault).st :=
  pgfault_private_copy sampleFault 0x500a 2 0x200805 (by decide!) (by decide) (by decide) (by decide!)

/-- Claim C6. Handling a write fault on a page `p` is local to the faulting
environment: the record of every other environment, hence each of its mappings,
is unchanged, in particular a sibling's mapping of `p`; the contents of every
frame in use (not on the free list), in particular of the frame `p` was shared
on, are unchanged; and in the faulting environment only the mappings of `p` and
of the scratch page differ from before. -/
theorem pgfault_local (s : Sys) (addr err : Nat) (hok : (pgfault addr err s).isOk = true) :
    (pgfault addr err s).st.curenv = s.curenv ∧
    (∀ e, e ≠ s.curenv → (pgfault addr err s).st.envs e = s.envs e) ∧
    (∀ e ps, e ≠ s.curenv → page_lookup (s.envs e) (PGNUM addr) = some ps →
      page_lookup ((pgfault addr err s).st.envs e) (PGNUM addr) = some ps) ∧
    (∀ fr, fr ∉ s.page_free_list → ∀ off, (pgfault addr err s).st.mem fr off = s.mem fr off) ∧
    (∀ q, q ≠ PGNUM addr → q ≠ PGNUM PFTEMP →
      page_lookup ((pgfault addr err s).st.envs s.curenv) q = page_lookup (s.envs s.curenv) q) := by
  obtain ⟨f, rest, hfree, hcur, hoth, hrest, hmem⟩ := pgfault_ok_frame hok
  refine ⟨hcur, hoth, ?_, ?_, hrest⟩
  · intro e ps he hps
    rw [hoth e he]; exact hps
  · intro fr hfr off
    apply hmem
    intro hh
    apply hfr
    rw [hfree, hh]
    simp

set_option maxRecDepth 1000000 in
theorem pgfault_local_witness :
    page_lookup ((pgfault 0x500a 2 sampleFault).st.envs 1) (PGNUM 0x500a) = some 0x200805 ∧
    (pgfault 0x500a 2 sampleFault).st.mem 0x200 10 = sampleFault.mem 0x200 10 :=
  ⟨(pgfault_local sampleFault 0x500a 2 (by decide!)).2.2.1 1 0x200805 (by decide) (by decide!),
   (pgfault_local sampleFault 0x500a 2 (by decide!)).2.2.2.1 0x200 (by decide) 10⟩

/-! ## Claims about `fork` and `sfork` -/

/-- A returning `fork` that reports a positive child: the registration of the
handler and the creation of the child lead to a state `s1` from which the parent
branch produces `ForkPost`. -/
theorem fork_spec {s : Sys} {childId : Int} (hT : (s.envs s.curenv).thisenv = s.curenv)
    (hcur : s.curenv ∉ s.env_free_list) (hv : (fork s).val? = some childId) (h0 : 0 < childId) :
    ∃ s1, ForkPost childId.toNat s1 (fork s).st ∧ s1.curenv = s.curenv ∧
      childId.toNat ≠ s.curenv ∧
      (∀ q, q ≠ (UXSTACKTOP - PGSIZE) / PGSIZE →
        page_lookup (s1.envs s.curenv) q = page_lookup (s.envs s.curenv) q) ∧
      (∀ e, e ≠ s.curenv → e ≠ childId.toNat → s1.envs e = s.envs e) ∧
      (∃ l, l ++ s1.page_free_list = s.page_free_list) ∧
      (∃ l, s1.trace = s.trace ++ l ∧ ∀ a b c d e, Syscall.page_map a b c d e ∉ l) ∧
      ((s.envs s.curenv).pgfault_handler ≠ FnPtr.null →
        ∀ q, page_lookup (s1.envs s.curenv) q = page_lookup (s.envs s.curenv) q) := by
  obtain ⟨s1, h1, h2, h3, h4, _, h6, h7, h8, _, _, h11, h12⟩ := fork_entry hv h0 hcur
  have hok : (fork_parent childId s1).isOk = true := by
    rw [← h1]
    cases hf : fork s with
    | ok v t => rfl
    | panic m t => rw [hf] at hv; simp [Res.val?] at hv
  have hT1 : (s1.envs s1.curenv).thisenv = s1.curenv := by rw [h2, h3]; exact hT
  obtain ⟨post, _⟩ := fork_parent_spec hT1 h0 (by rw [h2]; exact h4) hok
  rw [← h1] at post
  exact ⟨s1, post, h2, h4, h6, h7, h8, h11, h12⟩

/-- A page that is mapped in `s` and is not the exception stack is handed to
`duppage` by the scan started in a state with the same mappings. -/
theorem dupCand_of_mapped {s s1 : Sys} {pn pte : Nat} (hcur : s1.curenv = s.curenv)
    (hsame : ∀ q, q ≠ (UXSTACKTOP - PGSIZE) / PGSIZE →
      page_lookup (s1.envs s.curenv) q = page_lookup (s.envs s.curenv) q)
    (hpn : pn < UTOP / PGSIZE) (hx : pn ≠ (UXSTACKTOP - PGSIZE) / PGSIZE)
    (hl : page_lookup (s.envs s.curenv) pn = some pte) :
    dupCand s1 pn ∧ uvpt s1 pn = pte := by
  have h1 := hsame pn hx
  rw [hl] at h1
  obtain ⟨a, b, c⟩ := page_lookup_some h1
  have hu : uvpt s1 pn = pte := by unfold uvpt; rw [hcur]; exact c.symm
  refine ⟨⟨hpn, hx, ?_, ?_⟩, hu⟩
  · unfold uvpd
    rw [hcur]
    intro h0
    rw [h0] at a
    exact a (by simp)
  · rw [hu, c]; exact b

theorem dupEntry_cow {pte : Nat} (h : ¬ (pte &&& PTE_W = 0 ∧ pte &&& PTE_COW = 0)) :
    dupEntry pte = frameOf pte * PGSIZE ||| (cowPerm pte ||| PTE_P) ∧
    dupParentEntry pte = frameOf pte * PGSIZE ||| (cowPerm pte ||| PTE_P) := by
  unfold dupEntry dupParentEntry
  rw [if_neg h, if_neg h]
  exact ⟨rfl, rfl⟩

theorem cow_entry_facts (f x : Nat) :
    frameOf (f * PGSIZE ||| (cowPerm x ||| PTE_P)) = f ∧
    (f * PGSIZE ||| (cowPerm x ||| PTE_P)) &&& PTE_COW ≠ 0 ∧
    (f * PGSIZE ||| (cowPerm x ||| PTE_P)) &&& PTE_W = 0 ∧
    (f * PGSIZE ||| (cowPerm x ||| PTE_P)) &&& PTE_P ≠ 0 := by
  refine ⟨frameOf_entry f _ (cowPerm_lt x), ?_, ?_, ?_⟩
  · rw [entry_and f _ PTE_COW (cowPerm_lt x) (by decide)]
    exact cowPerm_cow x
  · rw [entry_and f _ PTE_W (cowPerm_lt x) (by decide)]
    exact cowPerm_w x
  · rw [entry_and f _ PTE_P (cowPerm_lt x) (by decide)]
    exact or_P_and_P _

/-- Copy-on-write symmetry of `fork`, shared by the statements about `fork` and
about `sfork`. -/
theorem fork_cow_core {s : Sys} {pn pte : Nat} {childId : Int}
    (hT : (s.envs s.curenv).thisenv = s.curenv) (hcur : s.curenv ∉ s.env_free_list)
    (hpn : pn < UTOP / PGSIZE) (hx : pn ≠ (UXSTACKTOP - PGSIZE) / PGSIZE)
    (hl : page_lookup (s.envs s.curenv) pn = some pte)
    (hw : pte &&& PTE_W ≠ 0 ∨ pte &&& PTE_COW ≠ 0)
    (hv : (fork s).val? = some childId) (h0 : 0 < childId) :
    ∃ ep ec, page_lookup ((fork s).st.envs s.curenv) pn = some ep ∧
      page_lookup ((fork s).st.envs childId.toNat) pn = some ec ∧
      frameOf ep = frameOf pte ∧ frameOf ec = frameOf pte ∧
      ep &&& PTE_COW ≠ 0 ∧ ep &&& PTE_W = 0 ∧ ec &&& PTE_COW ≠ 0 ∧ ec &&& PTE_W = 0 := by
  obtain ⟨s1, post, h2, _, h6, _⟩ := fork_spec hT hcur hv h0
  obtain ⟨hcand, hu⟩ := dupCand_of_mapped h2 h6 hpn hx hl
  have hnr : ¬ (pte &&& PTE_W = 0 ∧ pte &&& PTE_COW = 0) := by
    intro hh
    rcases hw with hw | hw
    · exact hw hh.1
    · exact hw hh.2
  obtain ⟨e1, e2⟩ := dupEntry_cow hnr
  obtain ⟨f1, f2, f3, f4⟩ := cow_entry_facts (frameOf pte) pte
  have hp := post.ptab_done pn hcand
  have hc := post.ctab_done pn hcand
  have hpres := post.pres pn hcand
  rw [h2] at hp hpres
  rw [hu, e2] at hp
  rw [hu, e1] at hc
  obtain ⟨hd, _, _⟩ := page_lookup_some hpres
  have hpl : page_lookup ((fork s).st.envs s.curenv) pn =
      some (frameOf pte * PGSIZE ||| (cowPerm pte ||| PTE_P)) := by
    have hdir := post.pdir
    rw [h2] at hdir
    have := @page_lookup_of_present ((fork s).st.envs s.curenv) pn
      (by rw [hdir]; exact hd) (by rw [hp]; exact f4)
    rw [this, hp]
  exact ⟨_, _, hpl, hc, f1, f1, f2, f3, f2, f3⟩

theorem dupCalls_mem {p c q pte : Nat} {call : Syscall} (h : call ∈ dupCalls p c q pte) :
    (∃ perm, call = Syscall.page_map p (q * PGSIZE) c (q * PGSIZE) perm) ∨
    (¬ (pte &&& PTE_W = 0 ∧ pte &&& PTE_COW = 0) ∧
      ∃ perm, call = Syscall.page_map p (q * PGSIZE) p (q * PGSIZE) perm) := by
  unfold dupCalls at h
  split at h
  · simp only [List.mem_singleton] at h
    exact Or.inl ⟨_, h⟩
  · rename_i hro
    simp only [List.mem_cons, List.mem_singleton, List.not_mem_nil, or_false] at h
    rcases h with h | h
    · exact Or.inl ⟨_, h⟩
    · exact Or.inr ⟨hro, _, h⟩

theorem scanCalls_mem {s : Sys} {c : Nat} {call : Syscall} :
    ∀ pos, call ∈ scanCalls s c pos →
      ∃ q, q < pos ∧ dupCand s q ∧ call ∈ dupCalls s.curenv c q (uvpt s q) := by
  intro pos
  induction pos with
  | zero => intro h; simp [scanCalls] at h
  | succ pos ih =>
    intro h
    have h3 : scanCalls s c (pos + 1) = scanCalls s c pos ++
        (if dupCand s pos then dupCalls s.curenv c pos (uvpt s pos) else []) := rfl
    rw [h3, List.mem_append] at h
    rcases h with h | h
    · obtain ⟨q, hq, hc, hm⟩ := ih h
      exact ⟨q, by omega, hc, hm⟩
    · by_cases hc : dupCand s pos
      · rw [if_pos hc] at h
        exact ⟨pos, by omega, hc, h⟩
      · rw [if_neg hc] at h
        simp at h

/-- The system calls of the parent branch: every `sys_page_map` among them
belongs to the `duppage` of a scanned page. -/
theorem ForkPost_calls {c : Nat} {s s' : Sys} (post : ForkPost c s s') :
    ∃ l, s'.trace = s.trace ++ l ∧
      ∀ a b d e f, Syscall.page_map a b d e f ∈ l →
        ∃ q, dupCand s q ∧ Syscall.page_map a b d e f ∈ dupCalls s.curenv c q (uvpt s q) := by
  refine ⟨_, by rw [post.trace, List.append_assoc], ?_⟩
  intro a b d e f hm
  rw [List.mem_append] at hm
  rcases hm with hm | hm
  · obtain ⟨q, _, hc, hq⟩ := scanCalls_mem _ hm
    exact ⟨q, hc, hq⟩
  · simp at hm

theorem mul_PGSIZE_inj {a b : Nat} (h : a * PGSIZE = b * PGSIZE) : a = b := by
  simp only [PGSIZE] at h
  omega

/-- Sharing of read-only pages by `fork`, in the form the code realises. -/
theorem fork_shared_core {s : Sys} {pn pte : Nat} {childId : Int}
    (hT : (s.envs s.curenv).thisenv = s.curenv) (hcur : s.curenv ∉ s.env_free_list)
    (hpn : pn < UTOP / PGSIZE) (hx : pn ≠ (UXSTACKTOP - PGSIZE) / PGSIZE)
    (hl : page_lookup (s.envs s.curenv) pn = some pte)
    (hro : pte &&& PTE_W = 0 ∧ pte &&& PTE_COW = 0)
    (hv : (fork s).val? = some childId) (h0 : 0 < childId) :
    (∃ ec, page_lookup ((fork s).st.envs childId.toNat) pn = some ec ∧
      frameOf ec = frameOf pte ∧ ec % PGSIZE = pte &&& PTE_SYSCALL) ∧
    page_lookup ((fork s).st.envs s.curenv) pn = some pte ∧
    (∃ l, (fork s).st.trace = s.trace ++ l ∧
      ∀ a b d e, d = s.curenv ∨ d = 0 → Syscall.page_map a b d (pn * PGSIZE) e ∉ l) := by
  obtain ⟨s1, post, h2, hne, h6, _, _, ⟨l0, ht0, hl0⟩, _⟩ := fork_spec hT hcur hv h0
  obtain ⟨hcand, hu⟩ := dupCand_of_mapped h2 h6 hpn hx hl
  obtain ⟨hd, hpp, _⟩ := page_lookup_some hl
  have hP : pte &&& PTE_P ≠ 0 := by
    obtain ⟨_, b, c⟩ := page_lookup_some hl
    rw [c]; exact b
  have hp := post.ptab_done pn hcand
  have hc := post.ctab_done pn hcand
  have hpres := post.pres pn hcand
  rw [h2] at hp hpres
  rw [hu] at hp hc
  have e1 : dupEntry pte = frameOf pte * PGSIZE ||| (pte &&& PTE_SYSCALL) := by
    unfold dupEntry
    rw [if_pos hro, and_syscall_or_P pte hP]
  have e2 : dupParentEntry pte = pte := by
    unfold dupParentEntry
    rw [if_pos hro]
  rw [e1] at hc
  rw [e2] at hp
  refine ⟨⟨_, hc, frameOf_entry _ _ (and_syscall_lt pte), entry_mod _ _ (and_syscall_lt pte)⟩, ?_, ?_⟩
  · obtain ⟨hd1, _, _⟩ := page_lookup_some hpres
    have hdir := post.pdir
    rw [h2] at hdir
    have := @page_lookup_of_present ((fork s).st.envs s.curenv) pn
      (by rw [hdir]; exact hd1) (by rw [hp]; exact hP)
    rw [this, hp]
  · obtain ⟨l, htl, hlm⟩ := ForkPost_calls post
    refine ⟨l0 ++ l, by rw [htl, ht0, List.append_assoc], ?_⟩
    intro a b d e hde hm
    rw [List.mem_append] at hm
    rcases hm with hm | hm
    · exact hl0 _ _ _ _ _ hm
    · obtain ⟨q, hq, hmq⟩ := hlm _ _ _ _ _ hm
      have hc0 : childId.toNat ≠ 0 := by omega
      rcases dupCalls_mem hmq with ⟨perm, hcall⟩ | ⟨hnro, perm, hcall⟩
      · simp only [Syscall.page_map.injEq] at hcall
        obtain ⟨_, _, hdc, _, _⟩ := hcall
        rcases hde with hde | hde
        · exact hne (by rw [← hdc, hde])
        · exact hc0 (by rw [← hdc, hde])
      · simp only [Syscall.page_map.injEq] at hcall
        obtain ⟨_, _, _, hva, _⟩ := hcall
        have hqp : q = pn := (mul_PGSIZE_inj hva).symm
        subst hqp
        rw [hu] at hnro
        exact hnro hro

/-- Claim C1. COW symmetry.  Let `pn` be below `UTOP / PGSIZE`, not the
exception-stack page, mapped in the parent before `fork` (Present in the
directory and in the table) with `PTE_W` or `PTE_COW` set.  When `fork` returns
the positive `childId` to the parent (so every system call succeeded; the model
runs `fork` without intervening faults), the parent and the child both map `pn`
to the frame the parent mapped before, with `PTE_COW` set and `PTE_W` clear.
The parent's `thisenv` names the parent and the parent is not a free slot. -/
theorem fork_cow_symmetry (s : Sys) (pn pte : Nat) (childId : Int)
    (hT : (s.envs s.curenv).thisenv = s.curenv) (hcur : s.curenv ∉ s.env_free_list)
    (hpn : pn < UTOP / PGSIZE) (hx : pn ≠ (UXSTACKTOP - PGSIZE) / PGSIZE)
    (hl : page_lookup (s.envs s.curenv) pn = some pte)
    (hw : pte &&& PTE_W ≠ 0 ∨ pte &&& PTE_COW ≠ 0)
    (hv : (fork s).val? = some childId) (h0 : 0 < childId) :
    ∃ ep ec, page_lookup ((fork s).st.envs s.curenv) pn = some ep ∧
      page_lookup ((fork s).st.envs childId.toNat) pn = some ec ∧
      frameOf ep = frameOf pte ∧ frameOf ec = frameOf pte ∧
      ep &&& PTE_COW ≠ 0 ∧ ep &&& PTE_W = 0 ∧ ec &&& PTE_COW ≠ 0 ∧ ec &&& PTE_W = 0 :=
  fork_cow_core hT hcur hpn hx hl hw hv h0

set_option maxRecDepth 1000000 in
theorem fork_cow_symmetry_witness :
    ∃ ep ec, page_lookup ((fork sampleFork).st.envs sampleFork.curenv) 5 = some ep ∧
      page_lookup ((fork sampleFork).st.envs (2 : Int).toNat) 5 = some ec ∧
      frameOf ep = frameOf 0x200007 ∧ frameOf ec = frameOf 0x200007 ∧
      ep &&& PTE_COW ≠ 0 ∧ ep &&& PTE_W = 0 ∧ ec &&& PTE_COW ≠ 0 ∧ ec &&& PTE_W = 0 :=
  fork_cow_symmetry sampleFork 5 0x200007 2 (by decide) (by decide) (by decide) (by decide)
    (by decide!) (by decide) (by decide!) (by decide)

/-- Claim C2 as stated fails.  Page 6 of `sampleFork` is mapped read-only and
not copy-on-write with the Accessed bit set (entry `0x201025`); after `fork` the
child maps it with flags `0x005`, not with the parent's `0x025`. -/
theorem fork_sharing_counterexample :
    page_lookup (sampleFork.envs sampleFork.curenv) 6 = some 0x201025 ∧
    0x201025 &&& PTE_W = 0 ∧ 0x201025 &&& PTE_COW = 0 ∧
    (fork sampleFork).val? = some 2 ∧
    page_lookup ((fork sampleFork).st.envs 2) 6 = some 0x201005 ∧
    0x201005 % PGSIZE ≠ 0x201025 % PGSIZE := by
  decide!

/-- Claim C2, amended.  For a page `pn` below `UTOP / PGSIZE`, not the
exception-stack page, mapped in the parent before `fork` with neither `PTE_W`
nor `PTE_COW`: after `fork` the child maps `pn` to the parent's frame with the
parent's flags masked by `PTE_SYSCALL` (so `PTE_P`, `PTE_U` and the `PTE_AVAIL`
bits are kept and no flag is added), the parent's entry is what it was, and no
`sys_page_map` issued by `fork` has the parent's page `pn` as destination.  The
parent's `thisenv` names the parent and the parent is not a free slot. -/
theorem fork_shares_readonly (s : Sys) (pn pte : Nat) (childId : Int)
    (hT : (s.envs s.curenv).thisenv = s.curenv) (hcur : s.curenv ∉ s.env_free_list)
    (hpn : pn < UTOP / PGSIZE) (hx : pn ≠ (UXSTACKTOP - PGSIZE) / PGSIZE)
    (hl : page_lookup (s.envs s.curenv) pn = some pte)
    (hro : pte &&& PTE_W = 0 ∧ pte &&& PTE_COW = 0)
    (hv : (fork s).val? = some childId) (h0 : 0 < childId) :
    (∃ ec, page_lookup ((fork s).st.envs childId.toNat) pn = some ec ∧
      frameOf ec = frameOf pte ∧ ec % PGSIZE = pte &&& PTE_SYSCALL) ∧
    page_lookup ((fork s).st.envs s.curenv) pn = some pte ∧
    (∃ l, (fork s).st.trace = s.trace ++ l ∧
      ∀ a b d e, d = s.curenv ∨ d = 0 → Syscall.page_map a b d (pn * PGSIZE) e ∉ l) :=
  fork_shared_core hT hcur hpn hx hl hro hv h0

set_option maxRecDepth 1000000 in
theorem fork_shares_readonly_witness :
    page_lookup ((fork sampleFork).st.envs sampleFork.curenv) 6 = some 0x201025 :=
  (fork_shares_readonly sampleFork 6 0x201025 2 (by decide) (by decide) (by decide) (by decide)
    (by decide!) (by decide) (by decide!) (by decide)).2.1

/-- Claim C8. Exception-stack exclusivity.  When the parent branch of `fork`,
entered with the positive `childId` of another environment, completes: the
child's exception-stack page is mapped, with exactly `PTE_P | PTE_W | PTE_U`
(`PTE_COW` clear), to a frame taken from the free list, hence different from the
frame of the parent's exception stack, which is in use; the parent's own entry
and mapping of the exception-stack page are what they were; and no
`sys_page_map` of the branch names the exception-stack address, as source or as
destination (the page is never passed to `duppage`).  The parent's `thisenv`
names the parent. -/
theorem fork_exception_stack (s : Sys) (childId : Int)
    (hT : (s.envs s.curenv).thisenv = s.curenv) (h0 : 0 < childId)
    (hcp : childId.toNat ≠ s.curenv) (hok : (fork_parent childId s).isOk = true) :
    (∃ f ec, f ∈ s.page_free_list ∧
      page_lookup ((fork_parent childId s).st.envs childId.toNat) ((UXSTACKTOP - PGSIZE) / PGSIZE)
        = some ec ∧
      frameOf ec = f ∧ ec % PGSIZE = PTE_P ||| PTE_W ||| PTE_U ∧ ec &&& PTE_COW = 0 ∧
      ∀ ep, page_lookup (s.envs s.curenv) ((UXSTACKTOP - PGSIZE) / PGSIZE) = some ep →
        frameOf ep ∉ s.page_free_list → frameOf ep ≠ f) ∧
    ((fork_parent childId s).st.envs s.curenv).pgtab ((UXSTACKTOP - PGSIZE) / PGSIZE) =
      (s.envs s.curenv).pgtab ((UXSTACKTOP - PGSIZE) / PGSIZE) ∧
    page_lookup ((fork_parent childId s).st.envs s.curenv) ((UXSTACKTOP - PGSIZE) / PGSIZE) =
      page_lookup (s.envs s.curenv) ((UXSTACKTOP - PGSIZE) / PGSIZE) ∧
    (∃ l, (fork_parent childId s).st.trace = s.trace ++ l ∧
      ∀ a b d e, Syscall.page_map a (UXSTACKTOP - PGSIZE) b d e ∉ l ∧
        Syscall.page_map a b d (UXSTACKTOP - PGSIZE) e ∉ l) := by
  obtain ⟨post, _⟩ := fork_parent_spec hT h0 hcp hok
  have hnc : ¬ dupCand s ((UXSTACKTOP - PGSIZE) / PGSIZE) := fun hc => hc.2.1 rfl
  have hraw := post.ptab_rest _ hnc
  refine ⟨?_, hraw, ?_, ?_⟩
  · obtain ⟨f, hf, hlk, _⟩ := post.cx
    refine ⟨f, _, hf, hlk, frameOf_entry f _ perm7_lt, entry_mod f _ perm7_lt, perm7_entry_COW f, ?_⟩
    intro ep _ hfree hh
    exact hfree (by rw [hh]; exact hf)
  · exact page_lookup_congr (by rw [post.pdir]) hraw
  · obtain ⟨l, htl, hlm⟩ := ForkPost_calls post
    refine ⟨l, htl, ?_⟩
    have hxva : (UXSTACKTOP - PGSIZE) / PGSIZE * PGSIZE = UXSTACKTOP - PGSIZE := by decide
    intro a b d e
    constructor
    · intro hm
      obtain ⟨q, hq, hmq⟩ := hlm _ _ _ _ _ hm
      rcases dupCalls_mem hmq with ⟨perm, hcall⟩ | ⟨_, perm, hcall⟩
      · simp only [Syscall.page_map.injEq] at hcall
        obtain ⟨_, hva, _⟩ := hcall
        rw [← hxva] at hva
        exact hq.2.1 (mul_PGSIZE_inj hva).symm
      · simp only [Syscall.page_map.injEq] at hcall
        obtain ⟨_, hva, _⟩ := hcall
        rw [← hxva] at hva
        exact hq.2.1 (mul_PGSIZE_inj hva).symm
    · intro hm
      obtain ⟨q, hq, hmq⟩ := hlm _ _ _ _ _ hm
      rcases dupCalls_mem hmq with ⟨perm, hcall⟩ | ⟨_, perm, hcall⟩
      · simp only [Syscall.page_map.injEq] at hcall
        obtain ⟨_, _, _, hva, _⟩ := hcall
        rw [← hxva] at hva
        exact hq.2.1 (mul_PGSIZE_inj hva).symm
      · simp only [Syscall.page_map.injEq] at hcall
        obtain ⟨_, _, _, hva, _⟩ := hcall
        rw [← hxva] at hva
        exact hq.2.1 (mul_PGSIZE_inj hva).symm

set_option maxRecDepth 1000000 in
theorem fork_exception_stack_witness :
    page_lookup ((fork_parent 2 sampleParent).st.envs sampleParent.curenv)
        ((UXSTACKTOP - PGSIZE) / PGSIZE) =
      page_lookup (sampleParent.envs sampleParent.curenv) ((UXSTACKTOP - PGSIZE) / PGSIZE) :=
  (fork_exception_stack sampleParent 2 (by decide!) (by decide) (by decide!) (by decide!)).2.2.1

theorem scanCalls_of_cand {s : Sys} {c q : Nat} {call : Syscall} (hc : dupCand s q)
    (hm : call ∈ dupCalls s.curenv c q (uvpt s q)) :
    ∀ pos, q < pos → call ∈ scanCalls s c pos := by
  intro pos
  induction pos with
  | zero => intro h; omega
  | succ pos ih =>
    intro h
    have h3 : scanCalls s c (pos + 1) = scanCalls s c pos ++
        (if dupCand s pos then dupCalls s.curenv c pos (uvpt s pos) else []) := rfl
    rw [h3, List.mem_append]
    by_cases hq : q = pos
    · subst hq
      rw [if_pos hc]
      exact Or.inr hm
    · exact Or.inl (ih (by omega))

/-- The pages the scan hands to `duppage`: a `sys_page_map` from page `q` of the
parent to page `q` of the child is among the calls of the scan exactly when `q`
is below `UTOP / PGSIZE`, is not the exception-stack page, lies in a directory
whose entry is non-zero, and has a Present page-table entry. -/
theorem fork_scan_enumeration (s : Sys) (c q : Nat) :
    (∃ perm, Syscall.page_map s.curenv (q * PGSIZE) c (q * PGSIZE) perm ∈
        scanCalls s c (NPDENTRIES * NPTENTRIES)) ↔
      q < UTOP / PGSIZE ∧ q ≠ (UXSTACKTOP - PGSIZE) / PGSIZE ∧
        uvpd s (q / NPTENTRIES) ≠ 0 ∧ uvpt s q &&& PTE_P ≠ 0 := by
  constructor
  · rintro ⟨perm, hm⟩
    obtain ⟨q1, _, hc, hmq⟩ := scanCalls_mem _ hm
    have hq : q1 = q := by
      rcases dupCalls_mem hmq with ⟨perm1, hcall⟩ | ⟨_, perm1, hcall⟩
      · simp only [Syscall.page_map.injEq] at hcall
        exact (mul_PGSIZE_inj hcall.2.1).symm
      · simp only [Syscall.page_map.injEq] at hcall
        exact (mul_PGSIZE_inj hcall.2.1).symm
    subst hq
    exact hc
  · intro hc
    have hc1 : dupCand s q := hc
    by_cases hro : uvpt s q &&& PTE_W = 0 ∧ uvpt s q &&& PTE_COW = 0
    · refine ⟨uvpt s q &&& PTE_SYSCALL, scanCalls_of_cand hc1 ?_ _ (dupCand_lt hc1)⟩
      unfold dupCalls
      rw [if_pos hro]
      exact List.mem_singleton.mpr rfl
    · refine ⟨cowPerm (uvpt s q), scanCalls_of_cand hc1 ?_ _ (dupCand_lt hc1)⟩
      unfold dupCalls
      rw [if_neg hro]
      exact List.mem_cons_self _ _

/-- The system calls of a completed parent branch, in order: for each page the
scan hands to `duppage`, in increasing page order, the calls of that `duppage`;
then the installation of the upcall, the allocation of the child's exception
stack and the activation of the child. -/
theorem fork_parent_calls (s : Sys) (childId : Int)
    (hT : (s.envs s.curenv).thisenv = s.curenv) (h0 : 0 < childId)
    (hcp : childId.toNat ≠ s.curenv) (hok : (fork_parent childId s).isOk = true) :
    (fork_parent childId s).st.trace =
      s.trace ++ scanCalls s childId.toNat (NPDENTRIES * NPTENTRIES) ++
        [Syscall.env_set_pgfault_upcall childId.toNat FnPtr.pgfault_upcall,
         Syscall.page_alloc childId.toNat (UXSTACKTOP - PGSIZE) (PTE_P ||| PTE_W ||| PTE_U),
         Syscall.env_set_status childId.toNat ENV_RUNNABLE] :=
  (fork_parent_spec hT h0 hcp hok).1.trace

/-- The whole of `fork`, for a parent whose fault handler is already
registered: the parent's mapping of the exception-stack page after `fork` is the
one before `fork`, and the child's is a frame that was free before `fork`, with
exactly `PTE_P | PTE_W | PTE_U`.  (On the first registration
`set_pgfault_handler` itself maps the parent's exception stack.) -/
theorem fork_exception_stack_registered (s : Sys) (childId : Int)
    (hT : (s.envs s.curenv).thisenv = s.curenv) (hcur : s.curenv ∉ s.env_free_list)
    (hreg : (s.envs s.curenv).pgfault_handler ≠ FnPtr.null)
    (hv : (fork s).val? = some childId) (h0 : 0 < childId) :
    page_lookup ((fork s).st.envs s.curenv) ((UXSTACKTOP - PGSIZE) / PGSIZE) =
      page_lookup (s.envs s.curenv) ((UXSTACKTOP - PGSIZE) / PGSIZE) ∧
    ∃ f ec, f ∈ s.page_free_list ∧
      page_lookup ((fork s).st.envs childId.toNat) ((UXSTACKTOP - PGSIZE) / PGSIZE) = some ec ∧
      frameOf ec = f ∧ ec % PGSIZE = PTE_P ||| PTE_W ||| PTE_U ∧ ec &&& PTE_COW = 0 := by
  obtain ⟨s1, post, h2, _, _, _, ⟨l, hl⟩, _, h9⟩ := fork_spec hT hcur hv h0
  have hnc : ¬ dupCand s1 ((UXSTACKTOP - PGSIZE) / PGSIZE) := fun hc => hc.2.1 rfl
  have hraw := post.ptab_rest _ hnc
  have hdir := post.pdir
  rw [h2] at hraw hdir
  constructor
  · rw [← h9 hreg]
    exact page_lookup_congr (by rw [hdir]) (by rw [hraw]; unfold uvpt; rw [h2])
  · obtain ⟨f, hf, hlk, _⟩ := post.cx
    refine ⟨f, _, ?_, hlk, frameOf_entry f _ perm7_lt, entry_mod f _ perm7_lt, perm7_entry_COW f⟩
    rw [← hl]
    exact List.mem_append_right _ hf

theorem sfork_inner_eq (c i : Nat) : ∀ n j b s, sfork_inner c i n j b s = fork_inner c i n j b s := by
  intro n
  induction n with
  | zero => intro j b s; rfl
  | succ n ih =>
    intro j b s
    unfold sfork_inner fork_inner
    simp only [ih]

theorem sfork_outer_eq (c : Nat) : ∀ n i b s, sfork_outer c n i b s = fork_outer c n i b s := by
  intro n
  induction n with
  | zero => intro i b s; rfl
  | succ n ih =>
    intro i b s
    unfold sfork_outer fork_outer
    simp only [ih, sfork_inner_eq]

theorem sfork_parent_eq (childId : Int) (s : Sys) : sfork_parent childId s = fork_parent childId s := by
  unfold sfork_parent fork_parent
  rw [sfork_outer_eq]

theorem sfork_eq (s : Sys) : sfork s = fork s := by
  unfold sfork fork sfork_after_exofork fork_after_exofork
  simp only [sfork_parent_eq]

/-- Claim C9. `sfork` is `fork`: on every state the two runs end in the same
outcome, that is, the same return value (or panic), the same final machine
state, hence the same address spaces, and the same log of system calls with
their arguments.  In particular a page that is writable (or copy-on-write) in
the parent is copy-on-write, `PTE_W` clear, in both parent and child after
`sfork`. -/
theorem sfork_is_fork :
    (∀ s, sfork s = fork s) ∧
    (∀ (s : Sys) (pn pte : Nat) (childId : Int),
      (s.envs s.curenv).thisenv = s.curenv → s.curenv ∉ s.env_free_list →
      pn < UTOP / PGSIZE → pn ≠ (UXSTACKTOP - PGSIZE) / PGSIZE →
      page_lookup (s.envs s.curenv) pn = some pte →
      (pte &&& PTE_W ≠ 0 ∨ pte &&& PTE_COW ≠ 0) →
      (sfork s).val? = some childId → 0 < childId →
      ∃ ep ec, page_lookup ((sfork s).st.envs s.curenv) pn = some ep ∧
        page_lookup ((sfork s).st.envs childId.toNat) pn = some ec ∧
        frameOf ep = frameOf pte ∧ frameOf ec = frameOf pte ∧
        ep &&& PTE_COW ≠ 0 ∧ ep &&& PTE_W = 0 ∧ ec &&& PTE_COW ≠ 0 ∧ ec &&& PTE_W = 0) := by
  refine ⟨sfork_eq, ?_⟩
  intro s pn pte childId hT hcur hpn hx hl hw hv h0
  rw [sfork_eq] at hv ⊢
  exact fork_cow_core hT hcur hpn hx hl hw hv h0

set_option maxRecDepth 1000000 in
theorem sfork_is_fork_witness :
    ∃ ep ec, page_lookup ((sfork sampleFork).st.envs sampleFork.curenv) 5 = some ep ∧
      page_lookup ((sfork sampleFork).st.envs (2 : Int).toNat) 5 = some ec ∧
      frameOf ep = frameOf 0x200007 ∧ frameOf ec = frameOf 0x200007 ∧
      ep &&& PTE_COW ≠ 0 ∧ ep &&& PTE_W = 0 ∧ ec &&& PTE_COW ≠ 0 ∧ ec &&& PTE_W = 0 :=
  sfork_is_fork.2 sampleFork 5 0x200007 2 (by decide) (by decide) (by decide) (by decide)
    (by decide!) (by decide) (by decide!) (by decide)

/-- Claim C10 fails on the code.  `setmappings 1800 3fff 7`: page 3
(`0x3000`-`0x3fff`) lies inside `[start, end]` and has a page-table entry, but
the loop visits only `0x1800` and `0x2800` (the next address, `0x3800`, exceeds
the rounded-down `end`), so the entries of pages 1 and 2 get the new flags and
the entry of page 3 keeps its old ones. -/
theorem set_mappings_misses_last_page :
    (set_mappings 0x1800 0x3fff 7 sampleKern).map (fun pd => (pd.pgtab 1, pd.pgtab 2, pd.pgtab 3)) =
      some (0x201007, 0x202007, 0x203001) ∧
    pgdir_walk sampleKern 0x3000 = some 3 := by
  decide!

/-- Claim C10 fails on the code, second input.  `setmappings -10000000 -ffff800 7`
(the addresses `0xf0000000` to `0xf0000800`): `end%PGSIZE` is negative, the
bound rounds `end` up, and the entry of page `0xf0001`, which holds no address of
the range, is modified as well. -/
theorem set_mappings_touches_page_beyond_end :
    (-0x10000000 : Int) ≤ -0x0ffff800 ∧
    (set_mappings (-0x10000000) (-0x0ffff800) 7 sampleHigh).map
        (fun pd => (pd.pgtab 0xf0000, pd.pgtab 0xf0001)) = some (0x300007, 0x301007) ∧
    sampleHigh.pgtab 0xf0001 = 0x301001 := by
  decide!

end JOS
